import Mathlib

/-!
# Session authorization engine of `ZelBack/src/services/serviceHelper.js`

A shallow embedding of the privilege evaluator (`verifyPrivilege` and the six
tier checks), of the owner resolver (`getApplicationOwner`) and of the header
normalisation (`ensureObject`), together with the properties of the
specification that concern them.

JavaScript promises are modelled by their settlement: an `async` function
becomes a function into `Eff`, which records the result (a returned value or
the raised error of a rejected promise) and the ordered list of accesses to
the external collaborators made on the way.
-/

namespace Flux

/-! ## JavaScript values -/

/-- Errors a JavaScript evaluation can raise. -/
inductive JSError
  | typeError
  | syntaxError
  | lookupFailure
  | invalidSignature
  | other (msg : String)
deriving DecidableEq, Repr

deriving instance DecidableEq for Except

/-- Values a field of the parsed `zelidauth` header can hold.  Numbers are the
integers (`NaN` cannot come out of `JSON.parse`); a nested object or array is
kept only by a tag, its content never being inspected by the evaluator. -/
inductive Atom
  | undefined
  | null
  | bool (b : Bool)
  | num (n : Int)
  | str (s : String)
  | object (tag : Nat)
deriving DecidableEq, Repr

/-- JavaScript truthiness (`if (x)`, `x && y`, `!x`). -/
def Atom.truthy : Atom → Bool
  | .undefined => false
  | .null => false
  | .bool b => b
  | .num n => decide (n ≠ 0)
  | .str s => decide (s ≠ "")
  | .object _ => true

/-- Strict equality `a === b` between a header field and a value coming from
the configuration or from the database.  Two objects are equal only when they
are the same reference, which a header field and a configuration or database
value never are. -/
def Atom.strictEq : Atom → Atom → Bool
  | .object _, _ => false
  | _, .object _ => false
  | a, b => decide (a = b)

/-- Values of the `zelidauth` header and results of `JSON.parse`.  An array is
an object without a `zelid` or `signature` property. -/
inductive JSVal
  | undefined
  | null
  | bool (b : Bool)
  | num (n : Int)
  | str (s : String)
  | object (fields : List (String × Atom))
deriving DecidableEq, Repr

/-- Truthiness of a header value. -/
def JSVal.truthy : JSVal → Bool
  | .undefined => false
  | .null => false
  | .bool b => b
  | .num n => decide (n ≠ 0)
  | .str s => decide (s ≠ "")
  | .object _ => true

/-- The test `typeof v === 'object'`: true of objects and of `null`. -/
def JSVal.typeofObject : JSVal → Bool
  | .null => true
  | .object _ => true
  | _ => false

/-- The string `JSON.parse` works on when handed a primitive (`ToString`). -/
def JSVal.toJSString : JSVal → String
  | .undefined => "undefined"
  | .null => "null"
  | .bool true => "true"
  | .bool false => "false"
  | .num n => toString n
  | .str s => s
  | .object _ => "[object Object]"

/-- Property read `v.key`: a `TypeError` on `null` and `undefined`, the stored
value on an object that has the property, `undefined` otherwise. -/
def JSVal.getProp (v : JSVal) (key : String) : Except JSError Atom :=
  match v with
  | .undefined => .error .typeError
  | .null => .error .typeError
  | .object fields => .ok ((fields.lookup key).getD .undefined)
  | _ => .ok .undefined

/-- Truthiness of the optional resource name `appName`. -/
def nameTruthy : Option String → Bool
  | none => false
  | some s => decide (s ≠ "")

/-! ## Data model -/

/-- A document of the `loggedUsers` collection. -/
structure SessionRecord where
  zelid : String
  signature : String
  loginPhrase : String
deriving DecidableEq, Repr

/-- An application: a document of the global `appsInformation` collection
(projected on its owner) or an entry of the `availableApps()` directory. -/
structure AppRecord where
  name : String
  owner : String
deriving DecidableEq, Repr

/-- The request headers: only `zelidauth` is read. -/
structure Headers where
  zelidauth : JSVal
deriving DecidableEq, Repr

/-- The request object `req`; `headers` may be missing. -/
structure Request where
  headers : Option Headers
deriving DecidableEq, Repr

/-- Everything the evaluator reads from outside: configuration, the database
handle and its collections, the resource directory, and the library functions
it calls.  A collection or the directory is either its content or the error
its query fails with. -/
structure World where
  /-- `userconfig.initial.zelid` -/
  adminZelid : String
  /-- `config.fluxTeamZelId` -/
  fluxTeamZelId : String
  /-- whether `openDBConnection` has been set by `initiateDB` -/
  connected : Bool
  /-- the `loggedUsers` collection of the local database -/
  loggedUsers : Except JSError (List SessionRecord)
  /-- the `appsInformation` collection of the global apps database -/
  appsInformation : Except JSError (List AppRecord)
  /-- `availableApps()` of `appsService` -/
  availableApps : Except JSError (List AppRecord)
  /-- how the database matches a query value that is not a string (a number,
  a boolean, an operator object) against a stored string field -/
  queryMatch : Atom → String → Bool
  /-- `new RegExp(source, flags)`: a `SyntaxError`, or the test the database
  applies to the stored name -/
  newRegExp : String → String → Except JSError (String → Bool)
  /-- `String.prototype.toLowerCase` -/
  toLowerCase : String → String
  /-- `JSON.parse` -/
  jsonParse : String → Except JSError JSVal
  /-- `qs.parse` on a string: always an object -/
  qsParse : String → List (String × Atom)
  /-- `bitcoinMessage.verify(message, address, signature, messagePrefix,
  checkSegwitAlways)`; an optional argument left `undefined` is `none` -/
  bitcoinMessageVerify :
    String → Atom → Atom → Option String → Option Bool → Except JSError Bool
  /-- `zeltrezjs.address.pubKeyToAddr(pubKey, pubKeyHash)` -/
  pubKeyToAddr : String → String → Except JSError String
  /-- the `activeLoginPhrases` collection of the local database, each document
  given by its `loginPhrase` -/
  activeLoginPhrases : Except JSError (List String)

/-- The call `bitcoinMessage.verify(message, address, signature)` of the tier
checks: the two optional arguments are left `undefined`. -/
def World.verify (w : World) (message : String) (address signature : Atom) :
    Except JSError Bool :=
  w.bitcoinMessageVerify message address signature none none

/-! ## Effects -/

/-- An access to an external collaborator. -/
inductive Event
  /-- `findOne` on `appsInformation` with the name pattern of this source -/
  | appsFindOne (source : String)
  /-- enumeration of the fallback directory -/
  | directoryList
  /-- `findOne` on `loggedUsers` with `{ $and: [{ signature }, { zelid }] }` -/
  | usersFindOne (signature zelid : Atom)
  /-- call of the signature verifier -/
  | verifyCall (message : String) (address signature : Atom)
  /-- derivation of the canonical address from a public key -/
  | pubKeyToAddr (pubKey : String)
  /-- `findOneAndDelete` on `activeLoginPhrases` with `{ loginPhrase }` -/
  | phrasesFindOneAndDelete (loginPhrase : String)
deriving DecidableEq, Repr

/-- The settlement of an asynchronous computation: the accesses made, in
order, and the value returned or the error raised. -/
structure Eff (α : Type) where
  trace : List Event
  result : Except JSError α

/-- Return a value without any access. -/
def Eff.ret {α : Type} (a : α) : Eff α := ⟨[], .ok a⟩

/-- Raise an error. -/
def Eff.raise {α : Type} (e : JSError) : Eff α := ⟨[], .error e⟩

/-- Sequencing: a raised error stops the computation and keeps the accesses
made so far. -/
def Eff.andThen {α β : Type} (m : Eff α) (f : α → Eff β) : Eff β :=
  match m.result with
  | .error e => ⟨m.trace, .error e⟩
  | .ok a => ⟨m.trace ++ (f a).trace, (f a).result⟩

instance : Monad Eff where
  pure := Eff.ret
  bind := Eff.andThen

/-- A synchronous library call that may throw. -/
def Eff.ofExcept {α : Type} (r : Except JSError α) : Eff α := ⟨[], r⟩

/-- An access to a collaborator, with its outcome. -/
def Eff.access {α : Type} (ev : Event) (r : Except JSError α) : Eff α := ⟨[ev], r⟩

/-! ## Helpers of the source file -/

/-- `ensureObject(parameter)`. -/
def ensureObject (w : World) (parameter : JSVal) : JSVal :=
  if parameter.typeofObject then parameter
  else if !parameter.truthy then .object []
  else
    let param : JSVal :=
      match w.jsonParse parameter.toJSString with
      | .ok v => v
      | .error _ =>
        match parameter with
        | .str s => .object (w.qsParse s)
        | _ => .object []
    if !param.typeofObject then .object [] else param

/-- `const db = databaseConnection(); const database = db.db(...)`: reading
`.db` off the unset handle `null` is a `TypeError`. -/
def openDatabase (w : World) : Eff Unit :=
  if w.connected then Eff.ret () else Eff.raise .typeError

/-- `findOneInDatabase(database, collection, query, projection)`: the first
document of the collection that the query accepts, or `null`. -/
def findOneInDatabase {α : Type} (ev : Event) (collection : Except JSError (List α))
    (query : α → Bool) : Eff (Option α) :=
  Eff.access ev (collection.map (fun docs => docs.find? query))

/-- How the database matches one conjunct `{ field: value }` of a query
against a stored string: equality for a string, the database's own rule
otherwise. -/
def fieldMatches (w : World) (value : Atom) (stored : String) : Bool :=
  match value with
  | .str s => decide (s = stored)
  | v => w.queryMatch v stored

/-- The query `{ $and: [{ signature: auth.signature }, { zelid: auth.zelid }] }`. -/
def sessionQuery (w : World) (signature zelid : Atom) (doc : SessionRecord) : Bool :=
  fieldMatches w signature doc.signature && fieldMatches w zelid doc.zelid

/-- `getApplicationOwner(appName)`. -/
def getApplicationOwner (w : World) (appName : String) : Eff Atom := do
  openDatabase w
  let source := "^" ++ appName ++ "$"
  let re ← Eff.ofExcept (w.newRegExp source "i")
  let appSpecs ← findOneInDatabase (.appsFindOne source) w.appsInformation (fun doc => re doc.name)
  match appSpecs with
  | some doc => pure (.str doc.owner)
  | none =>
    let allApps ← Eff.access .directoryList w.availableApps
    let appInfo := allApps.find? (fun app => decide (w.toLowerCase app.name = w.toLowerCase appName))
    match appInfo with
    | some app => pure (.str app.owner)
    | none => pure .null

/-! ## The six tier checks -/

/-- The guarded call of the verifier: `try { valid = bitcoinMessage.verify(...) }
catch (error) { return false; }`, followed by `if (valid) return true` and the
final `return false`. -/
def checkSignature (w : World) (loginPhrase : String) (zelid signature : Atom) : Eff Bool := do
  let outcome ← Eff.access (.verifyCall loginPhrase zelid signature)
    (Except.ok (w.verify loginPhrase zelid signature))
  match outcome with
  | .error _ => pure false
  | .ok valid => if valid then pure true else pure false

/-- `verifyAdminSession(headers)`. -/
def verifyAdminSession (w : World) (headers : Option Headers) : Eff Bool :=
  match headers with
  | none => pure false
  | some h =>
    if h.zelidauth.truthy then do
      let auth := ensureObject w h.zelidauth
      let zelid ← Eff.ofExcept (auth.getProp "zelid")
      if zelid.truthy then do
        let signature ← Eff.ofExcept (auth.getProp "signature")
        if signature.truthy then
          if zelid.strictEq (.str w.adminZelid) then do
            openDatabase w
            let loggedUser ← findOneInDatabase (.usersFindOne signature zelid) w.loggedUsers
              (sessionQuery w signature zelid)
            match loggedUser with
            | some user => checkSignature w user.loginPhrase zelid signature
            | none => pure false
          else pure false
        else pure false
      else pure false
    else pure false

/-- `verifyUserSession(headers)`. -/
def verifyUserSession (w : World) (headers : Option Headers) : Eff Bool :=
  match headers with
  | none => pure false
  | some h =>
    if h.zelidauth.truthy then do
      let auth := ensureObject w h.zelidauth
      let zelid ← Eff.ofExcept (auth.getProp "zelid")
      if zelid.truthy then do
        let signature ← Eff.ofExcept (auth.getProp "signature")
        if signature.truthy then do
          openDatabase w
          let loggedUser ← findOneInDatabase (.usersFindOne signature zelid) w.loggedUsers
            (sessionQuery w signature zelid)
          match loggedUser with
          | some user => checkSignature w user.loginPhrase zelid signature
          | none => pure false
        else pure false
      else pure false
    else pure false

/-- `verifyFluxTeamSession(headers)`. -/
def verifyFluxTeamSession (w : World) (headers : Option Headers) : Eff Bool :=
  match headers with
  | none => pure false
  | some h =>
    if h.zelidauth.truthy then do
      let auth := ensureObject w h.zelidauth
      let zelid ← Eff.ofExcept (auth.getProp "zelid")
      if zelid.truthy then do
        let signature ← Eff.ofExcept (auth.getProp "signature")
        if signature.truthy then
          if zelid.strictEq (.str w.fluxTeamZelId) then do
            openDatabase w
            let loggedUser ← findOneInDatabase (.usersFindOne signature zelid) w.loggedUsers
              (sessionQuery w signature zelid)
            match loggedUser with
            | some user => checkSignature w user.loginPhrase zelid signature
            | none => pure false
          else pure false
        else pure false
      else pure false
    else pure false

/-- `verifyAdminAndFluxTeamSession(headers)`. -/
def verifyAdminAndFluxTeamSession (w : World) (headers : Option Headers) : Eff Bool :=
  match headers with
  | none => pure false
  | some h =>
    if h.zelidauth.truthy then do
      let auth := ensureObject w h.zelidauth
      let zelid ← Eff.ofExcept (auth.getProp "zelid")
      if zelid.truthy then do
        let signature ← Eff.ofExcept (auth.getProp "signature")
        if signature.truthy then
          if zelid.strictEq (.str w.fluxTeamZelId) || zelid.strictEq (.str w.adminZelid) then do
            openDatabase w
            let loggedUser ← findOneInDatabase (.usersFindOne signature zelid) w.loggedUsers
              (sessionQuery w signature zelid)
            match loggedUser with
            | some user => checkSignature w user.loginPhrase zelid signature
            | none => pure false
          else pure false
        else pure false
      else pure false
    else pure false

/-- `verifyAppOwnerSession(headers, appName)`. -/
def verifyAppOwnerSession (w : World) (headers : Option Headers) (appName : Option String) :
    Eff Bool :=
  match headers, appName with
  | some h, some name =>
    if h.zelidauth.truthy && nameTruthy (some name) then do
      let auth := ensureObject w h.zelidauth
      let zelid ← Eff.ofExcept (auth.getProp "zelid")
      if zelid.truthy then do
        let signature ← Eff.ofExcept (auth.getProp "signature")
        if signature.truthy then do
          let ownerZelID ← getApplicationOwner w name
          if zelid.strictEq ownerZelID then do
            openDatabase w
            let loggedUser ← findOneInDatabase (.usersFindOne signature zelid) w.loggedUsers
              (sessionQuery w signature zelid)
            match loggedUser with
            | some user => checkSignature w user.loginPhrase zelid signature
            | none => pure false
          else pure false
        else pure false
      else pure false
    else pure false
  | _, _ => pure false

/-- `verifyAppOwnerOrHigherSession(headers, appName)`. -/
def verifyAppOwnerOrHigherSession (w : World) (headers : Option Headers)
    (appName : Option String) : Eff Bool :=
  match headers, appName with
  | some h, some name =>
    if h.zelidauth.truthy && nameTruthy (some name) then do
      let auth := ensureObject w h.zelidauth
      let zelid ← Eff.ofExcept (auth.getProp "zelid")
      if zelid.truthy then do
        let signature ← Eff.ofExcept (auth.getProp "signature")
        if signature.truthy then do
          let ownerZelID ← getApplicationOwner w name
          if zelid.strictEq ownerZelID || zelid.strictEq (.str w.fluxTeamZelId)
              || zelid.strictEq (.str w.adminZelid) then do
            openDatabase w
            let loggedUser ← findOneInDatabase (.usersFindOne signature zelid) w.loggedUsers
              (sessionQuery w signature zelid)
            match loggedUser with
            | some user => checkSignature w user.loginPhrase zelid signature
            | none => pure false
          else pure false
        else pure false
      else pure false
    else pure false
  | _, _ => pure false

/-- `verifyPrivilege(privilege, req, appName)`. -/
def verifyPrivilege (w : World) (privilege : String) (req : Request) (appName : Option String) :
    Eff Bool :=
  match privilege with
  | "admin" => verifyAdminSession w req.headers
  | "fluxteam" => verifyFluxTeamSession w req.headers
  | "adminandfluxteam" => verifyAdminAndFluxTeamSession w req.headers
  | "appownerabove" => verifyAppOwnerOrHigherSession w req.headers appName
  | "appowner" => verifyAppOwnerSession w req.headers appName
  | "user" => verifyUserSession w req.headers
  | _ => pure false

/-! ## Address validation, message verification, cleanup -/

/-- The `length` of a JavaScript string: its number of UTF-16 code units. -/
def jsLength (s : String) : Nat :=
  (s.data.map (fun c => if c.val ≥ 0x10000 then 2 else 1)).sum

/-- What `verifyZelID` and `verifyMessage` return: a boolean, or the error
they caught. -/
inductive Returned
  | bool (b : Bool)
  | errorValue (e : JSError)
deriving DecidableEq, Repr

/-- `new Error('Missing parameters for message verification')`. -/
def missingParameters : JSError := .other "Missing parameters for message verification"

/-- `new Error('Invalid zelID')`. -/
def invalidZelID : JSError := .other "Invalid zelID"

/-- `let isValid = false; try { ...; isValid = <value>; } catch (e) {
log.error(e); isValid = e; } return isValid;`: the value of the body, or the
error it raised, returned as a value.  Logging has no effect here. -/
def captured (body : Eff Bool) : Eff Returned :=
  match body.result with
  | .ok b => ⟨body.trace, .ok (.bool b)⟩
  | .error e => ⟨body.trace, .ok (.errorValue e)⟩

/-- `verifyZelID(address)`; the argument is a string, or absent. -/
def verifyZelID (w : World) (address : Option String) : Eff Returned :=
  captured (
    match address with
    | none => Eff.raise missingParameters
    | some a =>
      if a = "" then Eff.raise missingParameters
      else if a.data.head? ≠ some '1' then Eff.raise invalidZelID
      else if jsLength a > 36 then do
        let _ ← Eff.access (.pubKeyToAddr a) (w.pubKeyToAddr a "00")
        pure true
      else pure true)

/-- `verifyMessage(message, address, signature, strMessageMagic,
checkSegwitAlways)`; the first three arguments are strings, or absent. -/
def verifyMessage (w : World) (message address signature : Option String)
    (strMessageMagic : Option String) (checkSegwitAlways : Option Bool) : Eff Returned :=
  captured (
    match address, message, signature with
    | some a, some m, some s =>
      if a = "" ∨ m = "" ∨ s = "" then Eff.raise missingParameters
      else do
        let signingAddress ←
          if jsLength a > 36 then Eff.access (.pubKeyToAddr a) (w.pubKeyToAddr a "00")
          else pure a
        Eff.access (.verifyCall m (.str signingAddress) (.str s))
          (w.bitcoinMessageVerify m (.str signingAddress) (.str s) strMessageMagic
            checkSegwitAlways)
    | _, _, _ => Eff.raise missingParameters)

/-- `findOneAndDeleteInDatabase(database, collection, query, projection)`:
the collection without the first document the query accepts, and the
settlement of the call. -/
def findOneAndDeleteInDatabase {α : Type} (ev : Event) (collection : Except JSError (List α))
    (query : α → Bool) : Except JSError (List α) × Eff Unit :=
  match collection with
  | .ok docs => (.ok (docs.eraseP query), Eff.access ev (.ok ()))
  | .error e => (.error e, Eff.access ev (.error e))

/-- `deleteLoginPhrase(phrase)`: the world after the call and its settlement.
The whole body sits in `try { ... } catch (error) { log.error(error); }`. -/
def deleteLoginPhrase (w : World) (phrase : String) : World × Eff Unit :=
  let attempt : World × Eff Unit :=
    if w.connected then
      let deletion := findOneAndDeleteInDatabase (.phrasesFindOneAndDelete phrase)
        w.activeLoginPhrases (fun loginPhrase => decide (loginPhrase = phrase))
      ({ w with activeLoginPhrases := deletion.1 }, deletion.2)
    else (w, Eff.raise .typeError)
  (attempt.1, ⟨attempt.2.trace, .ok ()⟩)

/-! ## The steps the six checks share

The six bodies repeat the same header test and the same session test; the two
are named here so that each check can be rewritten as their composition
(lemmas `verifyAdminSession_eq` to `verifyAppOwnerOrHigherSession_eq`). -/

/-- The header test `headers && headers.zelidauth`, the normalisation and
the field test `auth.zelid && auth.signature`: the two fields when both are
truthy, `none` when the test fails. -/
def readAuth (w : World) (headers : Option Headers) : Eff (Option (Atom × Atom)) :=
  match headers with
  | none => pure none
  | some h =>
    if h.zelidauth.truthy then do
      let auth := ensureObject w h.zelidauth
      let zelid ← Eff.ofExcept (auth.getProp "zelid")
      if zelid.truthy then do
        let signature ← Eff.ofExcept (auth.getProp "signature")
        if signature.truthy then pure (some (zelid, signature)) else pure none
      else pure none
    else pure none

/-- The session test: open the database, look the session up, verify the
signature over its login phrase. -/
def sessionStep (w : World) (zelid signature : Atom) : Eff Bool := do
  openDatabase w
  let loggedUser ← findOneInDatabase (.usersFindOne signature zelid) w.loggedUsers
    (sessionQuery w signature zelid)
  match loggedUser with
  | some user => checkSignature w user.loginPhrase zelid signature
  | none => pure false

/-- A check whose eligibility test reads nothing but the address. -/
def gatedCheck (w : World) (headers : Option Headers) (eligible : Atom → Bool) : Eff Bool := do
  let fields ← readAuth w headers
  match fields with
  | none => pure false
  | some (zelid, signature) =>
    if eligible zelid then sessionStep w zelid signature else pure false

/-- A check whose eligibility test first resolves the owner of `appName`. -/
def ownerGatedCheck (w : World) (headers : Option Headers) (appName : Option String)
    (eligible : Atom → Atom → Bool) : Eff Bool :=
  match appName with
  | none => pure false
  | some name =>
    if nameTruthy (some name) then do
      let fields ← readAuth w headers
      match fields with
      | none => pure false
      | some (zelid, signature) =>
        let ownerZelID ← getApplicationOwner w name
        if eligible zelid ownerZelID then sessionStep w zelid signature else pure false
    else pure false

/-! ## The vocabulary of the specification -/

/-- The privilege tiers of the specification. -/
inductive Tier
  | user
  | admin
  | fluxteam
  | adminandfluxteam
  | appowner
  | appownerabove
deriving DecidableEq, Repr

/-- The label under which `verifyPrivilege` knows a tier. -/
def Tier.label : Tier → String
  | .user => "user"
  | .admin => "admin"
  | .fluxteam => "fluxteam"
  | .adminandfluxteam => "adminandfluxteam"
  | .appowner => "appowner"
  | .appownerabove => "appownerabove"

/-- The tiers whose eligibility refers to the owner of a resource. -/
def Tier.needsOwner : Tier → Bool
  | .appowner => true
  | .appownerabove => true
  | _ => false

/-- The check `verifyPrivilege` dispatches a tier to. -/
def Tier.check (w : World) (t : Tier) (headers : Option Headers) (appName : Option String) :
    Eff Bool :=
  match t with
  | .user => verifyUserSession w headers
  | .admin => verifyAdminSession w headers
  | .fluxteam => verifyFluxTeamSession w headers
  | .adminandfluxteam => verifyAdminAndFluxTeamSession w headers
  | .appowner => verifyAppOwnerSession w headers appName
  | .appownerabove => verifyAppOwnerOrHigherSession w headers appName

/-- The request carries the address `address` and the signature `signature`:
its `zelidauth` header is present and its normal form has these two fields,
both truthy (for strings: non-empty). -/
def Request.carries (w : World) (req : Request) (address signature : Atom) : Prop :=
  ∃ h, req.headers = some h ∧ h.zelidauth.truthy = true ∧
    (ensureObject w h.zelidauth).getProp "zelid" = .ok address ∧
    (ensureObject w h.zelidauth).getProp "signature" = .ok signature ∧
    address.truthy = true ∧ signature.truthy = true

/-- The owner resolved for the resource name: `none` when the name is absent
or empty, or when the resolution raises. -/
def resolvedOwner (w : World) (appName : Option String) : Option Atom :=
  match appName with
  | none => none
  | some name =>
    if nameTruthy (some name) then
      match (getApplicationOwner w name).result with
      | .ok owner => some owner
      | .error _ => none
    else none

/-- The address is the resolved owner; a resolution that yields none (`null`)
makes nobody the owner. -/
def isResolvedOwner (w : World) (address : Atom) (appName : Option String) : Bool :=
  match resolvedOwner w appName with
  | some .null => false
  | some owner => address.strictEq owner
  | none => false

/-- The eligibility condition of a tier, row by row of the table of the
specification. -/
def Tier.eligible (w : World) (t : Tier) (address : Atom) (appName : Option String) : Bool :=
  match t with
  | .user => true
  | .admin => address.strictEq (.str w.adminZelid)
  | .fluxteam => address.strictEq (.str w.fluxTeamZelId)
  | .adminandfluxteam =>
    address.strictEq (.str w.adminZelid) || address.strictEq (.str w.fluxTeamZelId)
  | .appowner => nameTruthy appName && isResolvedOwner w address appName
  | .appownerabove =>
    nameTruthy appName && (isResolvedOwner w address appName
      || address.strictEq (.str w.adminZelid) || address.strictEq (.str w.fluxTeamZelId))

/-- The owner resolution a tier needs completes: it returns an owner or
`null` instead of raising. -/
def ownerResolves (w : World) (t : Tier) (appName : Option String) : Prop :=
  t.needsOwner = true → ∀ name, appName = some name → nameTruthy (some name) = true →
    ∃ owner, (getApplicationOwner w name).result = .ok owner

/-- The session lookup for `(address, signature)` returns `record`: the
database is connected, the collection is readable and `record` is the first
document the query accepts. -/
def sessionFound (w : World) (address signature : Atom) (record : SessionRecord) : Prop :=
  w.connected = true ∧
    ∃ docs, w.loggedUsers = .ok docs ∧
      docs.find? (sessionQuery w signature address) = some record

/-- The boolean a check returns once the verifier has answered: `true` only
when the verifier returned `true`; a raised error and `false` both give
`false`. -/
def verdict : Except JSError Bool → Bool
  | .ok true => true
  | _ => false

/-! ## A concrete world

Concrete collaborators on which the definitions above can be evaluated.  Each
one reproduces the JavaScript function on the fragment of inputs described in
its comment. -/

/-- Lower-casing of the ASCII letters, character by character: what
`toLowerCase` does on ASCII strings. -/
def asciiLower (s : String) : String := ⟨s.data.map Char.toLower⟩

/-- One element of a pattern body: a literal character or the dot. -/
inductive Piece
  | lit (c : Char)
  | anyChar
deriving DecidableEq, Repr

/-- Reads a pattern body made of letters, digits, spaces, `-`, `_` (literals)
and `.`; `none` when another character occurs. -/
def parseBody : List Char → Option (List Piece)
  | [] => some []
  | c :: cs =>
    if c = '.' then (parseBody cs).map (fun ps => Piece.anyChar :: ps)
    else if c.isAlphanum || c = ' ' || c = '-' || c = '_' then
      (parseBody cs).map (fun ps => Piece.lit c :: ps)
    else none

/-- Anchored, case-insensitive match of a pattern body against the whole
subject; the dot accepts every character but a line terminator. -/
def matchPieces : List Piece → List Char → Bool
  | [], [] => true
  | Piece.lit c :: ps, d :: ds => decide (c.toLower = d.toLower) && matchPieces ps ds
  | Piece.anyChar :: ps, d :: ds => decide (d ≠ '\n' ∧ d ≠ '\r') && matchPieces ps ds
  | _, _ => false

/-- Number of `(` minus number of `)` seen so far never drops below zero and
ends at zero. -/
def parensBalanced : List Char → Nat → Bool
  | [], depth => decide (depth = 0)
  | c :: cs, depth =>
    if c = '(' then parensBalanced cs (depth + 1)
    else if c = ')' then (match depth with
      | 0 => false
      | d + 1 => parensBalanced cs d)
    else parensBalanced cs depth

/-- The `RegExp` constructor on the sources `^body$` with flag `i`, where the
body is made of literals and dots, and on sources without backslash and
square bracket whose parentheses do not balance (which JavaScript rejects with
a `SyntaxError`: unterminated group or unmatched `)`).  Other sources are
outside the fragment and reported as `other`. -/
def fragmentRegExp (source flags : String) : Except JSError (String → Bool) :=
  if source.data.any (fun c => c = '\\' || c = '[' || c = ']') then
    .error (.other "pattern outside the fragment")
  else if !parensBalanced source.data 0 then .error .syntaxError
  else
    match source.data with
    | '^' :: rest =>
      if rest.getLast? = some '$' ∧ flags = "i" then
        match parseBody rest.dropLast with
        | some ps => .ok (fun subject => matchPieces ps subject.data)
        | none => .error (.other "pattern outside the fragment")
      else .error (.other "pattern outside the fragment")
    | _ => .error (.other "pattern outside the fragment")

/-- `JSON.parse` on the literal texts `null`, `true`, `false` and on the
unsigned decimal numerals without a leading zero; other texts are outside the
fragment and reported as a `SyntaxError`. -/
def jsonParseLiteral (text : String) : Except JSError JSVal :=
  if text = "null" then .ok .null
  else if text = "true" then .ok (.bool true)
  else if text = "false" then .ok (.bool false)
  else if text.data ≠ [] ∧ text.data.all Char.isDigit ∧
      (text = "0" ∨ text.data.head? ≠ some '0') then
    .ok (.num (text.data.foldl (fun acc c => 10 * acc + (c.toNat - 48)) 0 : Nat))
  else .error .syntaxError

/-- Splits a list of characters at every occurrence of a separator. -/
def splitAt (sep : Char) : List Char → List (List Char)
  | [] => [[]]
  | c :: cs =>
    if c = sep then [] :: splitAt sep cs
    else
      match splitAt sep cs with
      | [] => [[c]]
      | first :: others => (c :: first) :: others

/-- `qs.parse` on plain `key=value&key=value` strings (no percent-encoding, no
brackets): each piece is cut at its first `=`, a piece without `=` gets the
empty string as value, empty pieces are dropped. -/
def qsParsePlain (text : String) : List (String × Atom) :=
  (splitAt '&' text.data).filterMap (fun piece =>
    if piece = [] then none
    else some (String.mk (piece.takeWhile (fun c => c ≠ '=')),
      Atom.str (String.mk ((piece.dropWhile (fun c => c ≠ '=')).drop 1))))

/-- The verifier of the example scenario: the only valid signature is `sigA`
by `1ExampleAdminZelID` over `challenge123`; an address or signature that is
not a string makes the library throw.  The message prefix and the segwit
flag are not looked at. -/
def exampleVerify (message : String) (address signature : Atom) : Except JSError Bool :=
  match address, signature with
  | .str a, .str s =>
    .ok (decide (message = "challenge123" ∧ a = "1ExampleAdminZelID" ∧ s = "sigA"))
  | _, _ => .error .typeError

/-- A long-form address: a public key encoding of more than 36 characters
whose canonical address is `1ExampleAdminZelID`. -/
def examplePublicKey : String := "1ExamplePublicKeyOfTheAdministrator00000"

/-- The derivation of the example scenario: it succeeds on `examplePublicKey`
with the version byte `00` and throws on everything else. -/
def examplePubKeyToAddr (pubKey pubKeyHash : String) : Except JSError String :=
  if pubKey = examplePublicKey ∧ pubKeyHash = "00" then .ok "1ExampleAdminZelID"
  else .error (.other "invalid public key")

/-- The example scenario of the specification: `1ExampleAdminZelID` is the
administrator and holds the session `sigA` over `challenge123`; one
application is indexed and one is known only to the directory. -/
def exampleWorld : World where
  adminZelid := "1ExampleAdminZelID"
  fluxTeamZelId := "1ExampleFluxTeamZelID"
  connected := true
  loggedUsers := .ok [⟨"1ExampleAdminZelID", "sigA", "challenge123"⟩]
  appsInformation := .ok [⟨"IndexedApp", "1OwnerOfIndexed"⟩]
  availableApps := .ok [⟨"DirectoryApp", "1OwnerOfDirectory"⟩]
  queryMatch := fun _ _ => false
  newRegExp := fragmentRegExp
  toLowerCase := asciiLower
  jsonParse := jsonParseLiteral
  qsParse := qsParsePlain
  bitcoinMessageVerify := fun message address signature _ _ =>
    exampleVerify message address signature
  pubKeyToAddr := examplePubKeyToAddr
  activeLoginPhrases := .ok ["challenge123", "challenge456"]

/-- The request of the example scenario, the header given as a native object. -/
def exampleRequest : Request :=
  ⟨some ⟨.object [("zelid", .str "1ExampleAdminZelID"), ("signature", .str "sigA")]⟩⟩

/-- The example world with a directory whose enumeration fails. -/
def directoryDownWorld : World :=
  { exampleWorld with availableApps := .error .lookupFailure }

/-- A request by an address that owns no application and is neither the
administrator nor the fluxteam. -/
def strangerRequest : Request :=
  ⟨some ⟨.object [("zelid", .str "1Stranger"), ("signature", .str "sigS")]⟩⟩

/-- The example world with a second, older session record stored under the
same address and signature, in front of the one of the example. -/
def staleSessionWorld : World :=
  { exampleWorld with
    loggedUsers := .ok [⟨"1ExampleAdminZelID", "sigA", "stale"⟩,
      ⟨"1ExampleAdminZelID", "sigA", "challenge123"⟩] }

/-- A required input is missing from the request: no headers, no `zelidauth`
header, or a normalised header off which no truthy `zelid`, or no truthy
`signature`, can be read: the field is absent or falsy, or the normalised
header is `null`, which has no field at all. -/
def Request.fieldsMissing (w : World) (req : Request) : Prop :=
  req.headers = none ∨
  ∃ h, req.headers = some h ∧
    (h.zelidauth.truthy = false ∨
     (∀ zelid, (ensureObject w h.zelidauth).getProp "zelid" = .ok zelid →
        zelid.truthy = false) ∨
     (∀ signature, (ensureObject w h.zelidauth).getProp "signature" = .ok signature →
        signature.truthy = false))

/-- A request whose header is an object with an address but no signature. -/
def unsignedRequest : Request :=
  ⟨some ⟨.object [("zelid", .str "1ExampleAdminZelID")]⟩⟩

/-- The session lookup fails with `e`: the connection handle is unset (reading
the database off it is a `TypeError`), or the query on `loggedUsers` is
rejected with `e`. -/
def sessionLookupFails (w : World) (e : JSError) : Prop :=
  (w.connected = false ∧ e = .typeError) ∨ (w.connected = true ∧ w.loggedUsers = .error e)

/-- The owner lookup a tier performs for the resource name fails with `e`. -/
def ownerLookupFails (w : World) (t : Tier) (appName : Option String) (e : JSError) : Prop :=
  t.needsOwner = true ∧ ∃ name, appName = some name ∧ nameTruthy (some name) = true ∧
    (getApplicationOwner w name).result = .error e

/-- The example world with an unreachable `loggedUsers` collection. -/
def storeDownWorld : World :=
  { exampleWorld with loggedUsers := .error .lookupFailure }

/-- The example world before `initiateDB` has set the connection handle. -/
def disconnectedWorld : World :=
  { exampleWorld with connected := false }

/-- The example world with a verifier that throws on every input. -/
def throwingVerifierWorld : World :=
  { exampleWorld with bitcoinMessageVerify := fun _ _ _ _ _ => .error .invalidSignature }

/-- A request whose `zelidauth` header is the string `null`. -/
def nullHeaderRequest : Request := ⟨some ⟨.str "null"⟩⟩

/-- A request whose `zelidauth` header is the string `123`. -/
def numberHeaderRequest : Request := ⟨some ⟨.str "123"⟩⟩

/-- The example world with a directory entry whose name is `(`. -/
def parenthesisWorld : World :=
  { exampleWorld with availableApps := .ok [⟨"(", "1OwnerOfParenthesis"⟩] }

/-- The match condition of the query `{ name: new RegExp(`^${appName}$`, 'i') }`
that `getApplicationOwner` sends to the indexed collection: the test applied
to a stored name, or the error the `RegExp` constructor throws. -/
def nameCondition (w : World) (appName : String) : Except JSError (String → Bool) :=
  w.newRegExp ("^" ++ appName ++ "$") "i"

/-- Two names are equal up to letter case (the comparison of the fallback
path: `a.toLowerCase() === b.toLowerCase()`). -/
def equalUpToCase (w : World) (a b : String) : Prop :=
  w.toLowerCase a = w.toLowerCase b

instance (w : World) (a b : String) : Decidable (equalUpToCase w a b) :=
  inferInstanceAs (Decidable (w.toLowerCase a = w.toLowerCase b))

/-- The example world where the application `abc` is indexed and the
application `a.c`, owned by `1ExampleAdminZelID`, is known only to the
directory. -/
def dottedNameWorld : World :=
  { exampleWorld with
    appsInformation := .ok [⟨"abc", "1OwnerOfAbc"⟩]
    availableApps := .ok [⟨"a.c", "1ExampleAdminZelID"⟩] }

/-- The example world with two directory entries whose names differ by case
only; the second one is owned by `1ExampleAdminZelID`. -/
def twoEntriesWorld : World :=
  { exampleWorld with
    availableApps := .ok [⟨"sharedname", "1FirstOwner"⟩,
      ⟨"SharedName", "1ExampleAdminZelID"⟩] }

/-- The example world with a directory entry owned by `1ExampleAdminZelID`. -/
def ownedDirectoryWorld : World :=
  { exampleWorld with availableApps := .ok [⟨"DirectoryApp", "1ExampleAdminZelID"⟩] }

/-- The value `verifyMessage` returns for an outcome of the underlying
verifier: its boolean, or the error it threw, as a value. -/
def returnedOf : Except JSError Bool → Returned
  | .ok b => .bool b
  | .error e => .errorValue e

/-- An argument is missing: absent, or the empty string. -/
def absent : Option String → Bool
  | none => true
  | some s => decide (s = "")

/-- The example world where the session of the example is stored under the
long-form address `examplePublicKey`. -/
def longFormWorld : World :=
  { exampleWorld with loggedUsers := .ok [⟨examplePublicKey, "sigA", "challenge123"⟩] }

/-- A request carrying the long-form address and the signature `sigA`. -/
def longFormRequest : Request :=
  ⟨some ⟨.object [("zelid", .str examplePublicKey), ("signature", .str "sigA")]⟩⟩

/-- The example world with a derivation that throws on every input. -/
def noDerivationWorld : World :=
  { exampleWorld with pubKeyToAddr := fun _ _ => .error (.other "invalid public key") }

/-- An address of exactly 36 characters. -/
def address36 : String := "1ExampleAddressOfThirtySixCharacters"

/-- The decision sequence of section 4.5 of the specification, in its words:
fields absent, `false`; address not eligible, `false`; no session for the
address and signature, `false`; the verifier raised, `false`; otherwise the
verifier's answer. -/
def specEvaluate (fields : Option (Atom × Atom)) (eligible : Atom → Bool)
    (findSession : Atom → Atom → Option SessionRecord)
    (verify : String → Atom → Atom → Except JSError Bool) : Bool :=
  match fields with
  | none => false
  | some (address, signature) =>
    if !eligible address then false
    else
      match findSession address signature with
      | none => false
      | some session =>
        match verify session.loginPhrase address signature with
        | .error _ => false
        | .ok valid => valid

/-- The parsing step of the specification: the address and the signature of
the normalised `zelidauth` header when the headers, the header and both fields
are present, and nothing otherwise. -/
def specFields (w : World) (req : Request) : Option (Atom × Atom) :=
  match req.headers with
  | none => none
  | some h =>
    if h.zelidauth.truthy then
      match (ensureObject w h.zelidauth).getProp "zelid",
          (ensureObject w h.zelidauth).getProp "signature" with
      | .ok address, .ok signature =>
        if address.truthy && signature.truthy then some (address, signature) else none
      | _, _ => none
    else none

/-- The generic procedure instantiated with the row of a tier in the
eligibility table, the session store given by its content. -/
def specDecision (w : World) (t : Tier) (req : Request) (appName : Option String)
    (sessions : List SessionRecord) : Bool :=
  specEvaluate (specFields w req) (fun address => t.eligible w address appName)
    (fun address signature => sessions.find? (sessionQuery w signature address)) w.verify

/-- The `zelidauth` header of the request, when present, is not normalised to
`null`. -/
def Request.headerNormalises (w : World) (req : Request) : Prop :=
  ∀ h, req.headers = some h → h.zelidauth.truthy = true → ensureObject w h.zelidauth ≠ .null

/-- An access made by the owner resolution: the query on the indexed
collection or the enumeration of the directory. -/
def Event.isOwnerLookup : Event → Bool
  | .appsFindOne _ => true
  | .directoryList => true
  | _ => false

/-! ## Lemmas on effects -/

@[simp]
theorem Eff.pure_def {α : Type} (a : α) : (pure a : Eff α) = Eff.ret a := rfl

@[simp]
theorem Eff.bind_def {α β : Type} (m : Eff α) (f : α → Eff β) :
    (m >>= f) = m.andThen f := rfl

@[simp]
theorem Eff.ret_andThen {α β : Type} (a : α) (f : α → Eff β) :
    (Eff.ret a).andThen f = f a := by
  simp [Eff.ret, Eff.andThen]

@[simp]
theorem Eff.raise_andThen {α β : Type} (e : JSError) (f : α → Eff β) :
    (Eff.raise e : Eff α).andThen f = Eff.raise e := by
  simp [Eff.raise, Eff.andThen]

@[simp]
theorem Eff.ofExcept_ok_andThen {α β : Type} (a : α) (f : α → Eff β) :
    (Eff.ofExcept (.ok a)).andThen f = f a := by
  simp [Eff.ofExcept, Eff.andThen]

@[simp]
theorem Eff.ofExcept_error_andThen {α β : Type} (e : JSError) (f : α → Eff β) :
    (Eff.ofExcept (.error e : Except JSError α)).andThen f = Eff.raise e := by
  simp [Eff.ofExcept, Eff.andThen, Eff.raise]

@[simp]
theorem Eff.ret_trace {α : Type} (a : α) : (Eff.ret a).trace = [] := rfl

@[simp]
theorem Eff.ret_result {α : Type} (a : α) : (Eff.ret a).result = .ok a := rfl

@[simp]
theorem Eff.raise_trace {α : Type} (e : JSError) : (Eff.raise e : Eff α).trace = [] := rfl

@[simp]
theorem Eff.raise_result {α : Type} (e : JSError) :
    (Eff.raise e : Eff α).result = .error e := rfl

theorem Eff.access_ok_andThen {α β : Type} (ev : Event) (a : α) (f : α → Eff β) :
    (Eff.access ev (.ok a)).andThen f = ⟨ev :: (f a).trace, (f a).result⟩ := by
  simp [Eff.access, Eff.andThen]

theorem Eff.access_error_andThen {α β : Type} (ev : Event) (e : JSError) (f : α → Eff β) :
    (Eff.access ev (.error e : Except JSError α)).andThen f = ⟨[ev], .error e⟩ := by
  simp [Eff.access, Eff.andThen]

theorem Eff.andThen_assoc {α β γ : Type} (m : Eff α) (f : α → Eff β) (g : β → Eff γ) :
    (m.andThen f).andThen g = m.andThen (fun a => (f a).andThen g) := by
  obtain ⟨t, r⟩ := m
  cases r with
  | error e => simp [Eff.andThen]
  | ok a =>
    simp only [Eff.andThen]
    cases h : (f a).result <;> simp [h]

/-! ## The six checks as compositions of the shared steps -/

theorem verifyAdminSession_eq (w : World) (headers : Option Headers) :
    verifyAdminSession w headers
      = gatedCheck w headers (fun zelid => zelid.strictEq (.str w.adminZelid)) := by
  unfold verifyAdminSession gatedCheck readAuth sessionStep
  cases headers with
  | none => simp
  | some h =>
    simp only []
    split
    · simp only [Eff.bind_def, Eff.pure_def]
      cases hz : (ensureObject w h.zelidauth).getProp "zelid" with
      | error e => simp
      | ok zelid =>
        simp only [Eff.ofExcept_ok_andThen]
        split
        · cases hs : (ensureObject w h.zelidauth).getProp "signature" with
          | error e => simp
          | ok signature =>
            simp only [Eff.ofExcept_ok_andThen]
            split <;> simp
        · simp
    · simp

theorem verifyUserSession_eq (w : World) (headers : Option Headers) :
    verifyUserSession w headers = gatedCheck w headers (fun _ => true) := by
  unfold verifyUserSession gatedCheck readAuth sessionStep
  cases headers with
  | none => simp
  | some h =>
    simp only []
    split
    · simp only [Eff.bind_def, Eff.pure_def]
      cases hz : (ensureObject w h.zelidauth).getProp "zelid" with
      | error e => simp
      | ok zelid =>
        simp only [Eff.ofExcept_ok_andThen]
        split
        · cases hs : (ensureObject w h.zelidauth).getProp "signature" with
          | error e => simp
          | ok signature =>
            simp only [Eff.ofExcept_ok_andThen]
            split <;> simp
        · simp
    · simp

theorem verifyFluxTeamSession_eq (w : World) (headers : Option Headers) :
    verifyFluxTeamSession w headers
      = gatedCheck w headers (fun zelid => zelid.strictEq (.str w.fluxTeamZelId)) := by
  unfold verifyFluxTeamSession gatedCheck readAuth sessionStep
  cases headers with
  | none => simp
  | some h =>
    simp only []
    split
    · simp only [Eff.bind_def, Eff.pure_def]
      cases hz : (ensureObject w h.zelidauth).getProp "zelid" with
      | error e => simp
      | ok zelid =>
        simp only [Eff.ofExcept_ok_andThen]
        split
        · cases hs : (ensureObject w h.zelidauth).getProp "signature" with
          | error e => simp
          | ok signature =>
            simp only [Eff.ofExcept_ok_andThen]
            split <;> simp
        · simp
    · simp

theorem verifyAdminAndFluxTeamSession_eq (w : World) (headers : Option Headers) :
    verifyAdminAndFluxTeamSession w headers
      = gatedCheck w headers (fun zelid =>
          zelid.strictEq (.str w.fluxTeamZelId) || zelid.strictEq (.str w.adminZelid)) := by
  unfold verifyAdminAndFluxTeamSession gatedCheck readAuth sessionStep
  cases headers with
  | none => simp
  | some h =>
    simp only []
    split
    · simp only [Eff.bind_def, Eff.pure_def]
      cases hz : (ensureObject w h.zelidauth).getProp "zelid" with
      | error e => simp
      | ok zelid =>
        simp only [Eff.ofExcept_ok_andThen]
        split
        · cases hs : (ensureObject w h.zelidauth).getProp "signature" with
          | error e => simp
          | ok signature =>
            simp only [Eff.ofExcept_ok_andThen]
            split <;> simp
        · simp
    · simp

theorem verifyAppOwnerSession_eq (w : World) (headers : Option Headers)
    (appName : Option String) :
    verifyAppOwnerSession w headers appName
      = ownerGatedCheck w headers appName (fun zelid owner => zelid.strictEq owner) := by
  unfold verifyAppOwnerSession ownerGatedCheck readAuth sessionStep
  cases appName with
  | none => cases headers <;> simp
  | some name =>
    cases headers with
    | none => by_cases hn : nameTruthy (some name) = true <;> simp [hn]
    | some h =>
      by_cases hn : nameTruthy (some name) = true
      · simp only [hn, Bool.and_true, if_true]
        split
        · simp only [Eff.bind_def, Eff.pure_def]
          cases hz : (ensureObject w h.zelidauth).getProp "zelid" with
          | error e => simp
          | ok zelid =>
            simp only [Eff.ofExcept_ok_andThen]
            split
            · cases hs : (ensureObject w h.zelidauth).getProp "signature" with
              | error e => simp
              | ok signature =>
                simp only [Eff.ofExcept_ok_andThen]
                split <;> simp
            · simp
        · simp
      · simp [hn]

theorem verifyAppOwnerOrHigherSession_eq (w : World) (headers : Option Headers)
    (appName : Option String) :
    verifyAppOwnerOrHigherSession w headers appName
      = ownerGatedCheck w headers appName (fun zelid owner =>
          zelid.strictEq owner || zelid.strictEq (.str w.fluxTeamZelId)
            || zelid.strictEq (.str w.adminZelid)) := by
  unfold verifyAppOwnerOrHigherSession ownerGatedCheck readAuth sessionStep
  cases appName with
  | none => cases headers <;> simp
  | some name =>
    cases headers with
    | none => by_cases hn : nameTruthy (some name) = true <;> simp [hn]
    | some h =>
      by_cases hn : nameTruthy (some name) = true
      · simp only [hn, Bool.and_true, if_true]
        split
        · simp only [Eff.bind_def, Eff.pure_def]
          cases hz : (ensureObject w h.zelidauth).getProp "zelid" with
          | error e => simp
          | ok zelid =>
            simp only [Eff.ofExcept_ok_andThen]
            split
            · cases hs : (ensureObject w h.zelidauth).getProp "signature" with
              | error e => simp
              | ok signature =>
                simp only [Eff.ofExcept_ok_andThen]
                split <;> simp
            · simp
        · simp
      · simp [hn]

/-! ## Lemmas on the shared steps -/

theorem verifyPrivilege_label (w : World) (t : Tier) (req : Request) (appName : Option String) :
    verifyPrivilege w t.label req appName = t.check w req.headers appName := by
  cases t <;> rfl

theorem readAuth_trace (w : World) (headers : Option Headers) :
    (readAuth w headers).trace = [] := by
  unfold readAuth
  cases headers with
  | none => rfl
  | some h =>
    simp only []
    split
    · simp only [Eff.bind_def, Eff.pure_def]
      cases hz : (ensureObject w h.zelidauth).getProp "zelid" with
      | error e => simp
      | ok zelid =>
        simp only [Eff.ofExcept_ok_andThen]
        split
        · cases hs : (ensureObject w h.zelidauth).getProp "signature" with
          | error e => simp
          | ok signature =>
            simp only [Eff.ofExcept_ok_andThen]
            split <;> simp
        · simp
    · simp

theorem readAuth_of_carries (w : World) (req : Request) (address signature : Atom)
    (h : req.carries w address signature) :
    readAuth w req.headers = Eff.ret (some (address, signature)) := by
  obtain ⟨hd, hh, ht, hz, hs, hza, hsa⟩ := h
  simp [readAuth, hh, ht, hz, hs, hza, hsa]

theorem carries_of_readAuth (w : World) (req : Request) (address signature : Atom)
    (h : (readAuth w req.headers).result = .ok (some (address, signature))) :
    req.carries w address signature := by
  unfold readAuth at h
  cases hh : req.headers with
  | none => simp [hh] at h
  | some hd =>
    simp only [hh] at h
    by_cases ht : hd.zelidauth.truthy = true
    · simp only [ht, if_true, Eff.bind_def, Eff.pure_def] at h
      cases hz : (ensureObject w hd.zelidauth).getProp "zelid" with
      | error e => simp [hz] at h
      | ok zelid =>
        simp only [hz, Eff.ofExcept_ok_andThen] at h
        by_cases hza : zelid.truthy = true
        · simp only [hza, if_true] at h
          cases hs : (ensureObject w hd.zelidauth).getProp "signature" with
          | error e => simp [hs] at h
          | ok sig =>
            simp only [hs, Eff.ofExcept_ok_andThen] at h
            by_cases hsa : sig.truthy = true
            · simp only [hsa, if_true, Eff.ret_result, Except.ok.injEq, Option.some.injEq,
                Prod.mk.injEq] at h
              obtain ⟨rfl, rfl⟩ := h
              exact ⟨hd, hh, ht, hz, hs, hza, hsa⟩
            · simp [hsa] at h
        · simp [hza] at h
    · simp [ht] at h

theorem checkSignature_eq (w : World) (phrase : String) (zelid signature : Atom) :
    checkSignature w phrase zelid signature
      = ⟨[.verifyCall phrase zelid signature], .ok (verdict (w.verify phrase zelid signature))⟩ := by
  unfold checkSignature
  cases hv : w.verify phrase zelid signature with
  | error e => simp [Eff.access, Eff.andThen, Eff.ret, verdict]
  | ok b => cases b <;> simp [Eff.access, Eff.andThen, Eff.ret, verdict]

theorem sessionStep_disconnected (w : World) (zelid signature : Atom)
    (h : w.connected = false) : sessionStep w zelid signature = Eff.raise .typeError := by
  simp [sessionStep, openDatabase, h]

theorem sessionStep_store_error (w : World) (zelid signature : Atom) (e : JSError)
    (hc : w.connected = true) (hs : w.loggedUsers = .error e) :
    sessionStep w zelid signature = ⟨[.usersFindOne signature zelid], .error e⟩ := by
  simp [sessionStep, openDatabase, hc, findOneInDatabase, hs, Eff.access, Eff.andThen,
    Except.map]

theorem sessionStep_not_found (w : World) (zelid signature : Atom) (docs : List SessionRecord)
    (hc : w.connected = true) (hs : w.loggedUsers = .ok docs)
    (hf : docs.find? (sessionQuery w signature zelid) = none) :
    sessionStep w zelid signature = ⟨[.usersFindOne signature zelid], .ok false⟩ := by
  simp [sessionStep, openDatabase, hc, findOneInDatabase, hs, Eff.access, Eff.andThen,
    Except.map, hf, Eff.ret]

theorem sessionStep_found (w : World) (zelid signature : Atom) (record : SessionRecord)
    (h : sessionFound w zelid signature record) :
    sessionStep w zelid signature
      = ⟨[.usersFindOne signature zelid, .verifyCall record.loginPhrase zelid signature],
          .ok (verdict (w.verify record.loginPhrase zelid signature))⟩ := by
  obtain ⟨hc, docs, hs, hf⟩ := h
  simp [sessionStep, openDatabase, hc, findOneInDatabase, hs, Eff.access, Eff.andThen,
    Except.map, hf, checkSignature_eq]

theorem sessionStep_true (w : World) (zelid signature : Atom)
    (h : (sessionStep w zelid signature).result = .ok true) :
    ∃ record, sessionFound w zelid signature record ∧
      w.verify record.loginPhrase zelid signature = .ok true := by
  cases hc : w.connected with
  | false => simp [sessionStep_disconnected w zelid signature hc] at h
  | true =>
    cases hs : w.loggedUsers with
    | error e => simp [sessionStep_store_error w zelid signature e hc hs] at h
    | ok docs =>
      cases hf : docs.find? (sessionQuery w signature zelid) with
      | none => simp [sessionStep_not_found w zelid signature docs hc hs hf] at h
      | some record =>
        have hfound : sessionFound w zelid signature record := ⟨hc, docs, hs, hf⟩
        rw [sessionStep_found w zelid signature record hfound] at h
        refine ⟨record, hfound, ?_⟩
        cases hv : w.verify record.loginPhrase zelid signature with
        | error e => simp [hv, verdict] at h
        | ok b => cases b <;> simp_all [verdict]

theorem sessionStep_trace_no_owner_access (w : World) (zelid signature : Atom) :
    ∀ ev ∈ (sessionStep w zelid signature).trace,
      ev = .usersFindOne signature zelid ∨ ∃ phrase, ev = .verifyCall phrase zelid signature := by
  intro ev hev
  cases hc : w.connected with
  | false => simp [sessionStep_disconnected w zelid signature hc] at hev
  | true =>
    cases hs : w.loggedUsers with
    | error e =>
      simp [sessionStep_store_error w zelid signature e hc hs] at hev
      exact Or.inl hev
    | ok docs =>
      cases hf : docs.find? (sessionQuery w signature zelid) with
      | none =>
        simp [sessionStep_not_found w zelid signature docs hc hs hf] at hev
        exact Or.inl hev
      | some record =>
        have hfound : sessionFound w zelid signature record := ⟨hc, docs, hs, hf⟩
        rw [sessionStep_found w zelid signature record hfound] at hev
        simp at hev
        rcases hev with h | h
        · exact Or.inl h
        · exact Or.inr ⟨_, h⟩

theorem gatedCheck_of_carries (w : World) (req : Request) (address signature : Atom)
    (eligible : Atom → Bool) (h : req.carries w address signature) :
    gatedCheck w req.headers eligible
      = if eligible address then sessionStep w address signature else Eff.ret false := by
  simp [gatedCheck, readAuth_of_carries w req address signature h]

theorem ownerGatedCheck_no_name (w : World) (headers : Option Headers)
    (appName : Option String) (eligible : Atom → Atom → Bool)
    (h : nameTruthy appName = false) :
    ownerGatedCheck w headers appName eligible = Eff.ret false := by
  cases appName with
  | none => rfl
  | some name => simp [ownerGatedCheck, h]

theorem ownerGatedCheck_of_carries (w : World) (req : Request) (address signature : Atom)
    (name : String) (eligible : Atom → Atom → Bool)
    (h : req.carries w address signature) (hn : nameTruthy (some name) = true) :
    ownerGatedCheck w req.headers (some name) eligible
      = (getApplicationOwner w name).andThen (fun owner =>
          if eligible address owner then sessionStep w address signature else Eff.ret false) := by
  simp [ownerGatedCheck, hn, readAuth_of_carries w req address signature h]

theorem Tier.check_eq (w : World) (t : Tier) (headers : Option Headers)
    (appName : Option String) :
    t.check w headers appName =
      match t with
      | .user => gatedCheck w headers (fun _ => true)
      | .admin => gatedCheck w headers (fun zelid => zelid.strictEq (.str w.adminZelid))
      | .fluxteam => gatedCheck w headers (fun zelid => zelid.strictEq (.str w.fluxTeamZelId))
      | .adminandfluxteam => gatedCheck w headers (fun zelid =>
          zelid.strictEq (.str w.fluxTeamZelId) || zelid.strictEq (.str w.adminZelid))
      | .appowner => ownerGatedCheck w headers appName (fun zelid owner => zelid.strictEq owner)
      | .appownerabove => ownerGatedCheck w headers appName (fun zelid owner =>
          zelid.strictEq owner || zelid.strictEq (.str w.fluxTeamZelId)
            || zelid.strictEq (.str w.adminZelid)) := by
  cases t
  · exact verifyUserSession_eq w headers
  · exact verifyAdminSession_eq w headers
  · exact verifyFluxTeamSession_eq w headers
  · exact verifyAdminAndFluxTeamSession_eq w headers
  · exact verifyAppOwnerSession_eq w headers appName
  · exact verifyAppOwnerOrHigherSession_eq w headers appName

theorem Eff.andThen_result {α β : Type} (m : Eff α) (f : α → Eff β) :
    (m.andThen f).result
      = match m.result with
        | .error e => .error e
        | .ok a => (f a).result := by
  unfold Eff.andThen
  cases m.result <;> rfl

theorem strictEq_null_of_truthy (a : Atom) (h : a.truthy = true) : a.strictEq .null = false := by
  cases a <;> simp_all [Atom.truthy, Atom.strictEq]

theorem ownerGatedCheck_result (w : World) (req : Request) (address signature : Atom)
    (name : String) (eligible : Atom → Atom → Bool)
    (h : req.carries w address signature) (hn : nameTruthy (some name) = true) :
    (ownerGatedCheck w req.headers (some name) eligible).result
      = match (getApplicationOwner w name).result with
        | .error e => .error e
        | .ok owner =>
          if eligible address owner then (sessionStep w address signature).result
          else .ok false := by
  rw [ownerGatedCheck_of_carries w req address signature name eligible h hn, Eff.andThen_result]
  cases (getApplicationOwner w name).result with
  | error e => rfl
  | ok owner =>
    simp only []
    split <;> simp

theorem isResolvedOwner_eq (w : World) (address owner : Atom) (name : String)
    (ht : address.truthy = true) (hn : nameTruthy (some name) = true)
    (ho : (getApplicationOwner w name).result = .ok owner) :
    isResolvedOwner w address (some name) = address.strictEq owner := by
  unfold isResolvedOwner resolvedOwner
  simp only [hn, if_true, ho]
  cases owner <;> simp [strictEq_null_of_truthy address ht]

theorem isResolvedOwner_of_raise (w : World) (address : Atom) (name : String) (e : JSError)
    (ho : (getApplicationOwner w name).result = .error e) :
    isResolvedOwner w address (some name) = false := by
  unfold isResolvedOwner resolvedOwner
  by_cases hn : nameTruthy (some name) = true <;> simp [hn, ho]

/-! ## C1: an ineligible address is never authorized -/

/-- C1, as stated, fails: an address that is not eligible for an application
tier does not get `false` when the owner resolution raises; the error of the
lookup (here the failed directory enumeration, and the `SyntaxError` of the
pattern built from the name `(`) is what `verifyPrivilege` settles with. -/
theorem ineligible_raises_when_owner_resolution_fails :
    strangerRequest.carries directoryDownWorld (.str "1Stranger") (.str "sigS") ∧
    Tier.eligible directoryDownWorld .appowner (.str "1Stranger") (some "UnlistedApp") = false ∧
    (verifyPrivilege directoryDownWorld "appowner" strangerRequest (some "UnlistedApp")).result
      = .error .lookupFailure ∧
    strangerRequest.carries exampleWorld (.str "1Stranger") (.str "sigS") ∧
    Tier.eligible exampleWorld .appownerabove (.str "1Stranger") (some "(") = false ∧
    (verifyPrivilege exampleWorld "appownerabove" strangerRequest (some "(")).result
      = .error .syntaxError :=
  ⟨⟨_, rfl, rfl, rfl, rfl, rfl, rfl⟩, rfl, rfl, ⟨_, rfl, rfl, rfl, rfl, rfl, rfl⟩, rfl, rfl⟩

/-- C1 (amended): for every tier, every request carrying an address and a
signature, every resource name and every world (store contents, verifier):
when the address does not satisfy the tier's eligibility condition,
`verifyPrivilege` never returns `true`, and it returns `false` whenever the
owner resolution the tier needs completes. -/
theorem ineligible_not_authorized (w : World) (t : Tier) (req : Request)
    (appName : Option String) (address signature : Atom)
    (hreq : req.carries w address signature)
    (hne : t.eligible w address appName = false) :
    (verifyPrivilege w t.label req appName).result ≠ .ok true ∧
    (ownerResolves w t appName →
      (verifyPrivilege w t.label req appName).result = .ok false) := by
  have htruthy : address.truthy = true := by
    obtain ⟨_, _, _, _, _, ha, _⟩ := hreq
    exact ha
  rw [verifyPrivilege_label, Tier.check_eq]
  cases t with
  | user => simp [Tier.eligible] at hne
  | admin =>
    simp only [Tier.eligible] at hne
    simp [gatedCheck_of_carries w req address signature _ hreq, hne]
  | fluxteam =>
    simp only [Tier.eligible] at hne
    simp [gatedCheck_of_carries w req address signature _ hreq, hne]
  | adminandfluxteam =>
    simp only [Tier.eligible, Bool.or_eq_false_iff] at hne
    simp [gatedCheck_of_carries w req address signature _ hreq, hne.1, hne.2]
  | appowner =>
    simp only []
    cases appName with
    | none => simp [ownerGatedCheck_no_name w req.headers none _ rfl]
    | some name =>
      by_cases hn : nameTruthy (some name) = true
      · rw [ownerGatedCheck_result w req address signature name _ hreq hn]
        cases ho : (getApplicationOwner w name).result with
        | error e =>
          refine ⟨by simp, fun hres => ?_⟩
          obtain ⟨owner, hres⟩ := hres rfl name rfl hn
          simp [ho] at hres
        | ok owner =>
          simp only [Tier.eligible, hn, Bool.true_and,
            isResolvedOwner_eq w address owner name htruthy hn ho] at hne
          simp [hne]
      · simp [ownerGatedCheck_no_name w req.headers (some name) _ (by simpa using hn)]
  | appownerabove =>
    simp only []
    cases appName with
    | none => simp [ownerGatedCheck_no_name w req.headers none _ rfl]
    | some name =>
      by_cases hn : nameTruthy (some name) = true
      · rw [ownerGatedCheck_result w req address signature name _ hreq hn]
        cases ho : (getApplicationOwner w name).result with
        | error e =>
          refine ⟨by simp, fun hres => ?_⟩
          obtain ⟨owner, hres⟩ := hres rfl name rfl hn
          simp [ho] at hres
        | ok owner =>
          simp only [Tier.eligible, hn, Bool.true_and,
            isResolvedOwner_eq w address owner name htruthy hn ho,
            Bool.or_eq_false_iff] at hne
          simp [hne.1.1, hne.1.2, hne.2]
      · simp [ownerGatedCheck_no_name w req.headers (some name) _ (by simpa using hn)]

/-- Witness of C1: in the example scenario the administrator's request is not
eligible for the fluxteam tier, and a stranger's request is not eligible for
the tier `appowner` on an indexed application; both get `false`. -/
theorem ineligible_not_authorized_witness :
    (exampleRequest.carries exampleWorld (.str "1ExampleAdminZelID") (.str "sigA") ∧
      Tier.eligible exampleWorld .fluxteam (.str "1ExampleAdminZelID") none = false ∧
      (verifyPrivilege exampleWorld "fluxteam" exampleRequest none).result = .ok false) ∧
    (strangerRequest.carries exampleWorld (.str "1Stranger") (.str "sigS") ∧
      Tier.eligible exampleWorld .appowner (.str "1Stranger") (some "indexedapp") = false ∧
      (verifyPrivilege exampleWorld "appowner" strangerRequest (some "indexedapp")).result
        = .ok false) :=
  ⟨⟨⟨_, rfl, rfl, rfl, rfl, rfl, rfl⟩, rfl,
      (ineligible_not_authorized exampleWorld .fluxteam exampleRequest none
        (.str "1ExampleAdminZelID") (.str "sigA") ⟨_, rfl, rfl, rfl, rfl, rfl, rfl⟩ rfl).2
        (fun h => absurd h (by decide))⟩,
    ⟨⟨_, rfl, rfl, rfl, rfl, rfl, rfl⟩, rfl,
      (ineligible_not_authorized exampleWorld .appowner strangerRequest (some "indexedapp")
        (.str "1Stranger") (.str "sigS") ⟨_, rfl, rfl, rfl, rfl, rfl, rfl⟩ rfl).2
        (fun _ name hname _ => ⟨.str "1OwnerOfIndexed", by cases hname; rfl⟩)⟩⟩

theorem nameTruthy_some (appName : Option String) (h : nameTruthy appName = true) :
    ∃ name, appName = some name := by
  cases appName with
  | none => simp [nameTruthy] at h
  | some name => exact ⟨name, rfl⟩

/-! ## C2: a valid session is authorized for every eligible tier -/

/-- C2, as stated, fails twice.  A session record with the valid challenge
phrase exists in the store, yet the lookup returns the older record stored
under the same address and signature, and the administrator gets `false`.
And the administrator, eligible for `appownerabove` and holding the valid
session, gets no `true` when the owner resolution raises: the error of the
failed directory enumeration, or the `SyntaxError` of the pattern built from
the supplied resource name `(`. -/
theorem valid_session_not_authorized :
    (exampleRequest.carries staleSessionWorld (.str "1ExampleAdminZelID") (.str "sigA") ∧
      staleSessionWorld.verify "challenge123" (.str "1ExampleAdminZelID") (.str "sigA")
        = .ok true ∧
      (∃ docs, staleSessionWorld.loggedUsers = .ok docs ∧
        (⟨"1ExampleAdminZelID", "sigA", "challenge123"⟩ : SessionRecord) ∈ docs) ∧
      Tier.eligible staleSessionWorld .admin (.str "1ExampleAdminZelID") none = true ∧
      (verifyPrivilege staleSessionWorld "admin" exampleRequest none).result = .ok false) ∧
    (exampleRequest.carries directoryDownWorld (.str "1ExampleAdminZelID") (.str "sigA") ∧
      directoryDownWorld.verify "challenge123" (.str "1ExampleAdminZelID") (.str "sigA")
        = .ok true ∧
      sessionFound directoryDownWorld (.str "1ExampleAdminZelID") (.str "sigA")
        ⟨"1ExampleAdminZelID", "sigA", "challenge123"⟩ ∧
      Tier.eligible directoryDownWorld .appownerabove (.str "1ExampleAdminZelID")
        (some "UnlistedApp") = true ∧
      (verifyPrivilege directoryDownWorld "appownerabove" exampleRequest
        (some "UnlistedApp")).result = .error .lookupFailure) ∧
    (Tier.eligible exampleWorld .appownerabove (.str "1ExampleAdminZelID") (some "(") = true ∧
      (verifyPrivilege exampleWorld "admin" exampleRequest (some "(")).result = .ok true ∧
      (verifyPrivilege exampleWorld "appownerabove" exampleRequest (some "(")).result
        = .error .syntaxError) :=
  ⟨⟨⟨_, rfl, rfl, rfl, rfl, rfl, rfl⟩, rfl, ⟨_, rfl, by decide⟩, rfl, rfl⟩,
    ⟨⟨_, rfl, rfl, rfl, rfl, rfl, rfl⟩, rfl, ⟨rfl, _, rfl, rfl⟩, rfl, rfl⟩,
    ⟨rfl, rfl, rfl⟩⟩

/-- C2 (amended): for every request carrying an address and a signature, when
the session record the store's lookup returns for them (the first match)
carries a challenge phrase over which the verifier accepts the signature,
`verifyPrivilege` returns `true` for every tier whose eligibility condition the
address satisfies, provided the owner resolution the tier needs completes. -/
theorem valid_session_authorized (w : World) (t : Tier) (req : Request)
    (appName : Option String) (address signature : Atom) (record : SessionRecord)
    (hreq : req.carries w address signature)
    (hfound : sessionFound w address signature record)
    (hverify : w.verify record.loginPhrase address signature = .ok true)
    (helig : t.eligible w address appName = true)
    (hres : ownerResolves w t appName) :
    (verifyPrivilege w t.label req appName).result = .ok true := by
  have htruthy : address.truthy = true := by
    obtain ⟨_, _, _, _, _, ha, _⟩ := hreq
    exact ha
  have hstep : (sessionStep w address signature).result = .ok true := by
    rw [sessionStep_found w address signature record hfound, hverify]
    rfl
  rw [verifyPrivilege_label, Tier.check_eq]
  cases t with
  | user => simp [gatedCheck_of_carries w req address signature _ hreq, hstep]
  | admin =>
    simp only [Tier.eligible] at helig
    simp [gatedCheck_of_carries w req address signature _ hreq, helig, hstep]
  | fluxteam =>
    simp only [Tier.eligible] at helig
    simp [gatedCheck_of_carries w req address signature _ hreq, helig, hstep]
  | adminandfluxteam =>
    simp only [Tier.eligible] at helig
    rw [Bool.or_comm] at helig
    simp [gatedCheck_of_carries w req address signature _ hreq, helig, hstep]
  | appowner =>
    simp only [Tier.eligible, Bool.and_eq_true] at helig
    obtain ⟨name, rfl⟩ := nameTruthy_some appName helig.1
    obtain ⟨owner, ho⟩ := hres rfl name rfl helig.1
    have hown := helig.2
    rw [isResolvedOwner_eq w address owner name htruthy helig.1 ho] at hown
    simp only []
    rw [ownerGatedCheck_result w req address signature name _ hreq helig.1, ho]
    simp [hown, hstep]
  | appownerabove =>
    simp only [Tier.eligible, Bool.and_eq_true] at helig
    obtain ⟨name, rfl⟩ := nameTruthy_some appName helig.1
    obtain ⟨owner, ho⟩ := hres rfl name rfl helig.1
    have hown := helig.2
    rw [isResolvedOwner_eq w address owner name htruthy helig.1 ho] at hown
    have hcode : (address.strictEq owner || address.strictEq (.str w.fluxTeamZelId)
        || address.strictEq (.str w.adminZelid)) = true := by
      cases h1 : address.strictEq owner <;> cases h2 : address.strictEq (.str w.fluxTeamZelId)
        <;> cases h3 : address.strictEq (.str w.adminZelid) <;> simp_all
    simp only []
    rw [ownerGatedCheck_result w req address signature name _ hreq helig.1, ho]
    simp only [hcode, if_true, hstep]

/-- Witness of C2, the example scenario of the specification: the
administrator `1ExampleAdminZelID` with the stored session `sigA` over
`challenge123` is authorized for the tier `admin`, and for the tier
`appownerabove` on an indexed application. -/
theorem valid_session_authorized_witness :
    exampleRequest.carries exampleWorld (.str "1ExampleAdminZelID") (.str "sigA") ∧
    sessionFound exampleWorld (.str "1ExampleAdminZelID") (.str "sigA")
      ⟨"1ExampleAdminZelID", "sigA", "challenge123"⟩ ∧
    exampleWorld.verify "challenge123" (.str "1ExampleAdminZelID") (.str "sigA") = .ok true ∧
    Tier.eligible exampleWorld .admin (.str "1ExampleAdminZelID") none = true ∧
    (verifyPrivilege exampleWorld "admin" exampleRequest none).result = .ok true ∧
    Tier.eligible exampleWorld .appownerabove (.str "1ExampleAdminZelID")
      (some "indexedapp") = true ∧
    (verifyPrivilege exampleWorld "appownerabove" exampleRequest (some "indexedapp")).result
      = .ok true :=
  ⟨⟨_, rfl, rfl, rfl, rfl, rfl, rfl⟩, ⟨rfl, _, rfl, rfl⟩, rfl, rfl,
    valid_session_authorized exampleWorld .admin exampleRequest none
      (.str "1ExampleAdminZelID") (.str "sigA") ⟨"1ExampleAdminZelID", "sigA", "challenge123"⟩
      ⟨_, rfl, rfl, rfl, rfl, rfl, rfl⟩ ⟨rfl, _, rfl, rfl⟩ rfl rfl
      (fun h => absurd h (by decide)),
    rfl,
    valid_session_authorized exampleWorld .appownerabove exampleRequest (some "indexedapp")
      (.str "1ExampleAdminZelID") (.str "sigA") ⟨"1ExampleAdminZelID", "sigA", "challenge123"⟩
      ⟨_, rfl, rfl, rfl, rfl, rfl, rfl⟩ ⟨rfl, _, rfl, rfl⟩ rfl rfl
      (fun _ name hname _ => ⟨.str "1OwnerOfIndexed", by cases hname; rfl⟩)⟩

/-! ## Lemmas on positive decisions and on missing fields -/

theorem readAuth_eq (w : World) (headers : Option Headers) :
    readAuth w headers = Eff.ofExcept (readAuth w headers).result := by
  have h := readAuth_trace w headers
  cases hr : readAuth w headers with
  | mk trace result =>
    rw [hr] at h
    simp only at h
    simp [Eff.ofExcept, h]

theorem gatedCheck_true (w : World) (req : Request) (eligible : Atom → Bool)
    (h : (gatedCheck w req.headers eligible).result = .ok true) :
    ∃ address signature, req.carries w address signature ∧ eligible address = true ∧
      gatedCheck w req.headers eligible = sessionStep w address signature := by
  cases hr : (readAuth w req.headers).result with
  | error e =>
    have hg : gatedCheck w req.headers eligible = Eff.raise e := by
      unfold gatedCheck
      rw [readAuth_eq, hr]
      simp
    simp [hg] at h
  | ok fields =>
    cases fields with
    | none =>
      have hg : gatedCheck w req.headers eligible = Eff.ret false := by
        unfold gatedCheck
        rw [readAuth_eq, hr]
        simp
      simp [hg] at h
    | some pair =>
      obtain ⟨address, signature⟩ := pair
      have hc := carries_of_readAuth w req address signature hr
      rw [gatedCheck_of_carries w req address signature eligible hc] at h ⊢
      by_cases he : eligible address = true
      · exact ⟨address, signature, hc, he, by simp [he]⟩
      · simp [he] at h

theorem ownerGatedCheck_true (w : World) (req : Request) (appName : Option String)
    (eligible : Atom → Atom → Bool)
    (h : (ownerGatedCheck w req.headers appName eligible).result = .ok true) :
    ∃ address signature name owner, req.carries w address signature ∧
      appName = some name ∧ nameTruthy (some name) = true ∧
      (getApplicationOwner w name).result = .ok owner ∧ eligible address owner = true ∧
      ownerGatedCheck w req.headers appName eligible
        = (getApplicationOwner w name).andThen (fun _ => sessionStep w address signature) := by
  cases appName with
  | none => simp [ownerGatedCheck] at h
  | some name =>
    by_cases hn : nameTruthy (some name) = true
    · cases hr : (readAuth w req.headers).result with
      | error e =>
        have hg : ownerGatedCheck w req.headers (some name) eligible = Eff.raise e := by
          unfold ownerGatedCheck
          rw [readAuth_eq, hr]
          simp [hn]
        simp [hg] at h
      | ok fields =>
        cases fields with
        | none =>
          have hg : ownerGatedCheck w req.headers (some name) eligible = Eff.ret false := by
            unfold ownerGatedCheck
            rw [readAuth_eq, hr]
            simp [hn]
          simp [hg] at h
        | some pair =>
          obtain ⟨address, signature⟩ := pair
          have hc := carries_of_readAuth w req address signature hr
          have hres := ownerGatedCheck_result w req address signature name eligible hc hn
          rw [hres] at h
          cases ho : (getApplicationOwner w name).result with
          | error e => simp [ho] at h
          | ok owner =>
            by_cases he : eligible address owner = true
            · refine ⟨address, signature, name, owner, hc, rfl, hn, ho, he, ?_⟩
              rw [ownerGatedCheck_of_carries w req address signature name eligible hc hn]
              simp only [Eff.andThen, ho, he, if_true]
            · simp [ho, he] at h
    · simp [ownerGatedCheck_no_name w req.headers (some name) eligible (by simpa using hn)] at h

theorem sessionQuery_str (w : World) (address signature : Atom) (record : SessionRecord)
    (h : sessionQuery w signature address record = true) :
    (∀ a, address = .str a → record.zelid = a) ∧
    (∀ s, signature = .str s → record.signature = s) := by
  simp only [sessionQuery, Bool.and_eq_true] at h
  constructor
  · intro a ha
    subst ha
    have h2 := h.2
    simp only [fieldMatches, decide_eq_true_eq] at h2
    exact h2.symm
  · intro s hs
    subst hs
    have h1 := h.1
    simp only [fieldMatches, decide_eq_true_eq] at h1
    exact h1.symm

theorem sessionStep_sound (w : World) (address signature : Atom)
    (h : (sessionStep w address signature).result = .ok true) :
    ∃ record, sessionFound w address signature record ∧
      w.verify record.loginPhrase address signature = .ok true ∧
      (∀ a, address = .str a → record.zelid = a) ∧
      (∀ s, signature = .str s → record.signature = s) ∧
      (sessionStep w address signature).trace
        = [.usersFindOne signature address,
            .verifyCall record.loginPhrase address signature] := by
  obtain ⟨record, hfound, hverify⟩ := sessionStep_true w address signature h
  have hq : sessionQuery w signature address record = true := by
    obtain ⟨_, docs, _, hf⟩ := hfound
    exact List.find?_some hf
  refine ⟨record, hfound, hverify, (sessionQuery_str w address signature record hq).1,
    (sessionQuery_str w address signature record hq).2, ?_⟩
  rw [sessionStep_found w address signature record hfound]

theorem verifyPrivilege_cases (w : World) (privilege : String) (req : Request)
    (appName : Option String) :
    (∃ t : Tier, privilege = t.label ∧
      verifyPrivilege w privilege req appName = t.check w req.headers appName) ∨
    ((∀ t : Tier, privilege ≠ t.label) ∧
      verifyPrivilege w privilege req appName = Eff.ret false) := by
  unfold verifyPrivilege
  split
  · exact Or.inl ⟨.admin, rfl, rfl⟩
  · exact Or.inl ⟨.fluxteam, rfl, rfl⟩
  · exact Or.inl ⟨.adminandfluxteam, rfl, rfl⟩
  · exact Or.inl ⟨.appownerabove, rfl, rfl⟩
  · exact Or.inl ⟨.appowner, rfl, rfl⟩
  · exact Or.inl ⟨.user, rfl, rfl⟩
  · rename_i h1 h2 h3 h4 h5 h6
    refine Or.inr ⟨?_, rfl⟩
    intro t ht
    cases t
    · exact h6 ht
    · exact h1 ht
    · exact h2 ht
    · exact h3 ht
    · exact h5 ht
    · exact h4 ht

theorem Eff.andThen_trace {α β : Type} (m : Eff α) (f : α → Eff β) :
    (m.andThen f).trace
      = match m.result with
        | .error _ => m.trace
        | .ok a => m.trace ++ (f a).trace := by
  unfold Eff.andThen
  cases m.result <;> rfl

/-! ## C3: a positive decision is backed by a verified session -/

/-- C3: whenever `verifyPrivilege` returns `true`, whatever the label, the
request carried a truthy (for strings: non-empty) address and signature, the
session lookup on `signature` and `zelid` returned a record (the first match
of the store), the verifier returned `true` for that record's login phrase
with this address and signature, and both the lookup and the verifier call
appear among the accesses made.  The record is stored under exactly this
address and this signature whenever these are strings. -/
theorem authorized_sound (w : World) (privilege : String) (req : Request)
    (appName : Option String)
    (h : (verifyPrivilege w privilege req appName).result = .ok true) :
    ∃ address signature record,
      req.carries w address signature ∧
      sessionFound w address signature record ∧
      w.verify record.loginPhrase address signature = .ok true ∧
      (∀ a, address = .str a → record.zelid = a) ∧
      (∀ s, signature = .str s → record.signature = s) ∧
      Event.usersFindOne signature address ∈ (verifyPrivilege w privilege req appName).trace ∧
      Event.verifyCall record.loginPhrase address signature
        ∈ (verifyPrivilege w privilege req appName).trace := by
  rcases verifyPrivilege_cases w privilege req appName with ⟨t, _, heq⟩ | ⟨_, heq⟩
  · rw [heq, Tier.check_eq] at h
    rw [heq, Tier.check_eq]
    have gated : ∀ eligible : Atom → Bool,
        (gatedCheck w req.headers eligible).result = .ok true →
        ∃ address signature record,
          req.carries w address signature ∧
          sessionFound w address signature record ∧
          w.verify record.loginPhrase address signature = .ok true ∧
          (∀ a, address = .str a → record.zelid = a) ∧
          (∀ s, signature = .str s → record.signature = s) ∧
          Event.usersFindOne signature address ∈ (gatedCheck w req.headers eligible).trace ∧
          Event.verifyCall record.loginPhrase address signature
            ∈ (gatedCheck w req.headers eligible).trace := by
      intro eligible hg
      obtain ⟨address, signature, hc, _, hstep⟩ := gatedCheck_true w req eligible hg
      rw [hstep] at hg
      obtain ⟨record, hfound, hverify, hz, hs, htrace⟩ := sessionStep_sound w address signature hg
      refine ⟨address, signature, record, hc, hfound, hverify, hz, hs, ?_, ?_⟩ <;>
        rw [hstep, htrace] <;> simp
    have ownerGated : ∀ eligible : Atom → Atom → Bool,
        (ownerGatedCheck w req.headers appName eligible).result = .ok true →
        ∃ address signature record,
          req.carries w address signature ∧
          sessionFound w address signature record ∧
          w.verify record.loginPhrase address signature = .ok true ∧
          (∀ a, address = .str a → record.zelid = a) ∧
          (∀ s, signature = .str s → record.signature = s) ∧
          Event.usersFindOne signature address
            ∈ (ownerGatedCheck w req.headers appName eligible).trace ∧
          Event.verifyCall record.loginPhrase address signature
            ∈ (ownerGatedCheck w req.headers appName eligible).trace := by
      intro eligible hg
      obtain ⟨address, signature, name, owner, hc, _, _, ho, _, hstep⟩ :=
        ownerGatedCheck_true w req appName eligible hg
      rw [hstep, Eff.andThen_result, ho] at hg
      simp only at hg
      obtain ⟨record, hfound, hverify, hz, hs, htrace⟩ := sessionStep_sound w address signature hg
      refine ⟨address, signature, record, hc, hfound, hverify, hz, hs, ?_, ?_⟩ <;>
        rw [hstep, Eff.andThen_trace, ho] <;> simp [htrace]
    cases t
    · exact gated _ h
    · exact gated _ h
    · exact gated _ h
    · exact gated _ h
    · exact ownerGated _ h
    · exact ownerGated _ h
  · rw [heq] at h
    simp at h

/-- Witness of C3: the positive decision of the example scenario. -/
theorem authorized_sound_witness :
    (verifyPrivilege exampleWorld "admin" exampleRequest none).result = .ok true ∧
    ∃ address signature record,
      exampleRequest.carries exampleWorld address signature ∧
      sessionFound exampleWorld address signature record ∧
      exampleWorld.verify record.loginPhrase address signature = .ok true ∧
      (∀ a, address = .str a → record.zelid = a) ∧
      (∀ s, signature = .str s → record.signature = s) ∧
      Event.usersFindOne signature address
        ∈ (verifyPrivilege exampleWorld "admin" exampleRequest none).trace ∧
      Event.verifyCall record.loginPhrase address signature
        ∈ (verifyPrivilege exampleWorld "admin" exampleRequest none).trace :=
  ⟨rfl, authorized_sound exampleWorld "admin" exampleRequest none rfl⟩

/-! ## Lemmas on requests without fields -/

theorem gatedCheck_readAuth_error (w : World) (headers : Option Headers)
    (eligible : Atom → Bool) (e : JSError) (h : (readAuth w headers).result = .error e) :
    gatedCheck w headers eligible = Eff.raise e := by
  unfold gatedCheck
  rw [readAuth_eq, h]
  simp

theorem gatedCheck_readAuth_none (w : World) (headers : Option Headers)
    (eligible : Atom → Bool) (h : (readAuth w headers).result = .ok none) :
    gatedCheck w headers eligible = Eff.ret false := by
  unfold gatedCheck
  rw [readAuth_eq, h]
  simp

theorem ownerGatedCheck_readAuth_error (w : World) (headers : Option Headers) (name : String)
    (eligible : Atom → Atom → Bool) (e : JSError) (hn : nameTruthy (some name) = true)
    (h : (readAuth w headers).result = .error e) :
    ownerGatedCheck w headers (some name) eligible = Eff.raise e := by
  unfold ownerGatedCheck
  rw [readAuth_eq, h]
  simp [hn]

theorem ownerGatedCheck_readAuth_none (w : World) (headers : Option Headers) (name : String)
    (eligible : Atom → Atom → Bool) (hn : nameTruthy (some name) = true)
    (h : (readAuth w headers).result = .ok none) :
    ownerGatedCheck w headers (some name) eligible = Eff.ret false := by
  unfold ownerGatedCheck
  rw [readAuth_eq, h]
  simp [hn]

/-! ## Lemmas on missing fields -/

theorem ensureObject_shape (w : World) (v : JSVal) (h : v.truthy = true) :
    ensureObject w v = .null ∨ ∃ fields, ensureObject w v = .object fields := by
  have key : ∀ param : JSVal,
      (if (!param.typeofObject) = true then JSVal.object [] else param) = .null ∨
      ∃ fields, (if (!param.typeofObject) = true then JSVal.object [] else param)
        = .object fields := by
    intro param
    cases param <;> simp [JSVal.typeofObject]
  unfold ensureObject
  cases v with
  | undefined => simp [JSVal.truthy] at h
  | null => simp [JSVal.truthy] at h
  | object fields => exact Or.inr ⟨fields, by simp [JSVal.typeofObject]⟩
  | bool b =>
    simp only [JSVal.typeofObject, h, Bool.not_true, Bool.false_eq_true, if_false]
    exact key _
  | num n =>
    simp only [JSVal.typeofObject, h, Bool.not_true, Bool.false_eq_true, if_false]
    exact key _
  | str t =>
    simp only [JSVal.typeofObject, h, Bool.not_true, Bool.false_eq_true, if_false]
    exact key _

theorem readAuth_eq_specFields (w : World) (req : Request) (hnn : req.headerNormalises w) :
    readAuth w req.headers = Eff.ret (specFields w req) := by
  unfold readAuth specFields
  cases hh : req.headers with
  | none => rfl
  | some h =>
    simp only []
    by_cases ht : h.zelidauth.truthy = true
    · rcases ensureObject_shape w h.zelidauth ht with hnull | ⟨fields, hobj⟩
      · exact absurd hnull (hnn h hh ht)
      · simp only [ht, if_true, hobj, JSVal.getProp, Eff.bind_def, Eff.pure_def,
          Eff.ofExcept_ok_andThen]
        by_cases hz : ((fields.lookup "zelid").getD Atom.undefined).truthy = true
        · by_cases hs : ((fields.lookup "signature").getD Atom.undefined).truthy = true
          · simp [hz, hs]
          · simp [hz, hs]
        · simp [hz]
    · simp [ht]

theorem getProp_error (v : JSVal) (key : String) (e : JSError)
    (h : v.getProp key = .error e) : e = .typeError := by
  cases v <;> simp [JSVal.getProp] at h <;> exact h.symm

theorem readAuth_error (w : World) (headers : Option Headers) (e : JSError)
    (h : (readAuth w headers).result = .error e) : e = .typeError := by
  unfold readAuth at h
  cases headers with
  | none => simp at h
  | some hd =>
    simp only [] at h
    by_cases ht : hd.zelidauth.truthy = true
    · simp only [ht, if_true, Eff.bind_def, Eff.pure_def] at h
      cases hz : (ensureObject w hd.zelidauth).getProp "zelid" with
      | error e2 =>
        simp only [hz, Eff.ofExcept_error_andThen, Eff.raise_result, Except.error.injEq] at h
        subst h
        exact getProp_error _ _ _ hz
      | ok zelid =>
        simp only [hz, Eff.ofExcept_ok_andThen] at h
        by_cases hza : zelid.truthy = true
        · simp only [hza, if_true] at h
          cases hs : (ensureObject w hd.zelidauth).getProp "signature" with
          | error e2 =>
            simp only [hs, Eff.ofExcept_error_andThen, Eff.raise_result,
              Except.error.injEq] at h
            subst h
            exact getProp_error _ _ _ hs
          | ok sig =>
            simp only [hs, Eff.ofExcept_ok_andThen] at h
            by_cases hsa : sig.truthy = true <;> simp [hsa] at h
        · simp [hza] at h
    · simp [ht] at h

theorem not_carries_of_fieldsMissing (w : World) (req : Request) (address signature : Atom)
    (h : req.fieldsMissing w) : ¬ req.carries w address signature := by
  rintro ⟨hd, hh, ht, hz, hs, hza, hsa⟩
  rcases h with h | ⟨hd2, hh2, h⟩
  · rw [h] at hh
    cases hh
  · rw [hh] at hh2
    cases hh2
    rcases h with h | h | h
    · rw [ht] at h
      cases h
    · have := h address hz
      rw [hza] at this
      cases this
    · have := h signature hs
      rw [hsa] at this
      cases this

theorem readAuth_of_fieldsMissing (w : World) (req : Request) (h : req.fieldsMissing w) :
    (readAuth w req.headers).result = .ok none ∨
    (readAuth w req.headers).result = .error .typeError := by
  cases hr : (readAuth w req.headers).result with
  | error e =>
    have he := readAuth_error w req.headers e hr
    subst he
    exact Or.inr rfl
  | ok fields =>
    cases fields with
    | none => exact Or.inl rfl
    | some pair =>
      obtain ⟨address, signature⟩ := pair
      exact absurd (carries_of_readAuth w req address signature hr)
        (not_carries_of_fieldsMissing w req address signature h)

theorem missing_fields_no_access (w : World) (t : Tier) (req : Request)
    (appName : Option String) (h : req.fieldsMissing w) :
    (verifyPrivilege w t.label req appName).trace = [] ∧
    ((verifyPrivilege w t.label req appName).result = .ok false ∨
      (verifyPrivilege w t.label req appName).result = .error .typeError) ∧
    (req.headerNormalises w → (verifyPrivilege w t.label req appName).result = .ok false) := by
  have hcases : verifyPrivilege w t.label req appName = Eff.ret false ∨
      verifyPrivilege w t.label req appName = Eff.raise .typeError := by
    rw [verifyPrivilege_label, Tier.check_eq]
    rcases readAuth_of_fieldsMissing w req h with hr | hr
    · have gated : ∀ eligible : Atom → Bool,
          gatedCheck w req.headers eligible = Eff.ret false :=
        fun eligible => gatedCheck_readAuth_none w req.headers eligible hr
      have ownerGated : ∀ eligible : Atom → Atom → Bool,
          ownerGatedCheck w req.headers appName eligible = Eff.ret false := by
        intro eligible
        cases appName with
        | none => rfl
        | some name =>
          by_cases hn : nameTruthy (some name) = true
          · exact ownerGatedCheck_readAuth_none w req.headers name eligible hn hr
          · exact ownerGatedCheck_no_name w req.headers (some name) eligible
              (by simpa using hn)
      cases t <;> simp [gated, ownerGated]
    · have gated : ∀ eligible : Atom → Bool,
          gatedCheck w req.headers eligible = Eff.raise .typeError :=
        fun eligible => gatedCheck_readAuth_error w req.headers eligible .typeError hr
      have ownerGated : ∀ eligible : Atom → Atom → Bool,
          ownerGatedCheck w req.headers appName eligible = Eff.ret false ∨
          ownerGatedCheck w req.headers appName eligible = Eff.raise .typeError := by
        intro eligible
        cases appName with
        | none => exact Or.inl rfl
        | some name =>
          by_cases hn : nameTruthy (some name) = true
          · exact Or.inr
              (ownerGatedCheck_readAuth_error w req.headers name eligible .typeError hn hr)
          · exact Or.inl (ownerGatedCheck_no_name w req.headers (some name) eligible
              (by simpa using hn))
      cases t
      · exact Or.inr (gated _)
      · exact Or.inr (gated _)
      · exact Or.inr (gated _)
      · exact Or.inr (gated _)
      · exact ownerGated _
      · exact ownerGated _
  refine ⟨?_, ?_, ?_⟩
  · rcases hcases with hc | hc <;> rw [hc] <;> rfl
  · rcases hcases with hc | hc
    · exact Or.inl (by rw [hc]; rfl)
    · exact Or.inr (by rw [hc]; rfl)
  · intro hnn
    have hread := readAuth_eq_specFields w req hnn
    have hnone : readAuth w req.headers = Eff.ret none := by
      rcases readAuth_of_fieldsMissing w req h with hr | hr
      · rw [hread] at hr ⊢
        simp only [Eff.ret_result, Except.ok.injEq] at hr
        rw [hr]
      · rw [hread] at hr
        simp at hr
    have gated : ∀ eligible : Atom → Bool,
        gatedCheck w req.headers eligible = Eff.ret false := by
      intro eligible
      simp [gatedCheck, hnone]
    have ownerGated : ∀ eligible : Atom → Atom → Bool,
        ownerGatedCheck w req.headers appName eligible = Eff.ret false := by
      intro eligible
      cases appName with
      | none => rfl
      | some name =>
        by_cases hn : nameTruthy (some name) = true <;> simp [ownerGatedCheck, hn, hnone]
    rw [verifyPrivilege_label, Tier.check_eq]
    cases t <;> simp [gated, ownerGated]

/-! ## C4: missing fields and the store -/

/-- C4, evaluated at its failing input, the `zelidauth` header `null`: the
header is present, its normal form is `null`, which has no `zelid` and no
`signature`, so the request is one of the missing-field cases; each of the
six checks makes no access, as claimed, but raises a `TypeError` instead of
returning `false`.  On a header with an address and no signature each check
returns `false` without any access. -/
theorem null_header_missing_fields_raise :
    nullHeaderRequest.fieldsMissing exampleWorld ∧
    verifyPrivilege exampleWorld "user" nullHeaderRequest none = ⟨[], .error .typeError⟩ ∧
    verifyPrivilege exampleWorld "admin" nullHeaderRequest none = ⟨[], .error .typeError⟩ ∧
    verifyPrivilege exampleWorld "fluxteam" nullHeaderRequest none
      = ⟨[], .error .typeError⟩ ∧
    verifyPrivilege exampleWorld "adminandfluxteam" nullHeaderRequest none
      = ⟨[], .error .typeError⟩ ∧
    verifyPrivilege exampleWorld "appowner" nullHeaderRequest (some "IndexedApp")
      = ⟨[], .error .typeError⟩ ∧
    verifyPrivilege exampleWorld "appownerabove" nullHeaderRequest (some "IndexedApp")
      = ⟨[], .error .typeError⟩ ∧
    unsignedRequest.fieldsMissing exampleWorld ∧
    verifyPrivilege exampleWorld "user" unsignedRequest none = ⟨[], .ok false⟩ ∧
    verifyPrivilege exampleWorld "appownerabove" unsignedRequest (some "IndexedApp")
      = ⟨[], .ok false⟩ :=
  ⟨Or.inr ⟨_, rfl, Or.inr (Or.inl (fun zelid h => by
      have h2 : (Except.error JSError.typeError : Except JSError Atom) = .ok zelid := h
      cases h2))⟩,
    rfl, rfl, rfl, rfl, rfl, rfl,
    Or.inr ⟨_, rfl, Or.inr (Or.inr (fun signature h => by
      have h2 : (Except.ok Atom.undefined : Except JSError Atom) = .ok signature := h
      cases h2
      rfl))⟩,
    rfl, rfl⟩

/-! ## Lemmas on eligible requests -/

theorem eligible_result (w : World) (t : Tier) (req : Request) (appName : Option String)
    (address signature : Atom)
    (hreq : req.carries w address signature)
    (helig : t.eligible w address appName = true)
    (hres : ownerResolves w t appName) :
    (verifyPrivilege w t.label req appName).result = (sessionStep w address signature).result := by
  have htruthy : address.truthy = true := by
    obtain ⟨_, _, _, _, _, ha, _⟩ := hreq
    exact ha
  rw [verifyPrivilege_label, Tier.check_eq]
  cases t with
  | user => simp [gatedCheck_of_carries w req address signature _ hreq]
  | admin =>
    simp only [Tier.eligible] at helig
    simp [gatedCheck_of_carries w req address signature _ hreq, helig]
  | fluxteam =>
    simp only [Tier.eligible] at helig
    simp [gatedCheck_of_carries w req address signature _ hreq, helig]
  | adminandfluxteam =>
    simp only [Tier.eligible] at helig
    rw [Bool.or_comm] at helig
    simp [gatedCheck_of_carries w req address signature _ hreq, helig]
  | appowner =>
    simp only [Tier.eligible, Bool.and_eq_true] at helig
    obtain ⟨name, rfl⟩ := nameTruthy_some appName helig.1
    obtain ⟨owner, ho⟩ := hres rfl name rfl helig.1
    have hown := helig.2
    rw [isResolvedOwner_eq w address owner name htruthy helig.1 ho] at hown
    simp only []
    rw [ownerGatedCheck_result w req address signature name _ hreq helig.1, ho]
    simp [hown]
  | appownerabove =>
    simp only [Tier.eligible, Bool.and_eq_true] at helig
    obtain ⟨name, rfl⟩ := nameTruthy_some appName helig.1
    obtain ⟨owner, ho⟩ := hres rfl name rfl helig.1
    have hown := helig.2
    rw [isResolvedOwner_eq w address owner name htruthy helig.1 ho] at hown
    have hcode : (address.strictEq owner || address.strictEq (.str w.fluxTeamZelId)
        || address.strictEq (.str w.adminZelid)) = true := by
      cases h1 : address.strictEq owner <;> cases h2 : address.strictEq (.str w.fluxTeamZelId)
        <;> cases h3 : address.strictEq (.str w.adminZelid) <;> simp_all
    simp only []
    rw [ownerGatedCheck_result w req address signature name _ hreq helig.1, ho]
    simp only [hcode, if_true]

theorem ownerLookup_raise_result (w : World) (t : Tier) (req : Request)
    (appName : Option String) (address signature : Atom) (e : JSError)
    (hreq : req.carries w address signature)
    (hfail : ownerLookupFails w t appName e) :
    (verifyPrivilege w t.label req appName).result = .error e := by
  obtain ⟨hneeds, name, rfl, hn, ho⟩ := hfail
  rw [verifyPrivilege_label, Tier.check_eq]
  cases t with
  | appowner =>
    simp only []
    rw [ownerGatedCheck_result w req address signature name _ hreq hn, ho]
  | appownerabove =>
    simp only []
    rw [ownerGatedCheck_result w req address signature name _ hreq hn, ho]
  | user => simp [Tier.needsOwner] at hneeds
  | admin => simp [Tier.needsOwner] at hneeds
  | fluxteam => simp [Tier.needsOwner] at hneeds
  | adminandfluxteam => simp [Tier.needsOwner] at hneeds

/-! ## C5: what a failing store lookup does -/

/-- C5, as stated, fails: with the `loggedUsers` collection unreachable, and
with the connection handle unset, the administrator's request on the tier
`admin` does not get `false`; the failure leaves `verifyPrivilege` as a raised
error. -/
theorem store_failure_not_false :
    exampleRequest.carries storeDownWorld (.str "1ExampleAdminZelID") (.str "sigA") ∧
    Tier.eligible storeDownWorld .admin (.str "1ExampleAdminZelID") none = true ∧
    (verifyPrivilege storeDownWorld "admin" exampleRequest none).result
      = .error .lookupFailure ∧
    (verifyPrivilege disconnectedWorld "admin" exampleRequest none).result
      = .error .typeError :=
  ⟨⟨_, rfl, rfl, rfl, rfl, rfl, rfl⟩, rfl, rfl, rfl⟩

/-- C5 (amended): for every tier and every request carrying an address and a
signature, a failing lookup is raised to the caller and no boolean is
returned: when the address passes the tier's eligibility condition and the
session lookup fails with `e` (collection unreachable, or no connection
handle), and when the owner lookup of an application tier fails with `e`,
`verifyPrivilege` settles with the error `e`. -/
theorem store_failure_raised (w : World) (t : Tier) (req : Request)
    (appName : Option String) (address signature : Atom) (e : JSError)
    (hreq : req.carries w address signature)
    (hfail : (t.eligible w address appName = true ∧ ownerResolves w t appName ∧
        sessionLookupFails w e) ∨ ownerLookupFails w t appName e) :
    (verifyPrivilege w t.label req appName).result = .error e := by
  rcases hfail with ⟨helig, hres, hsession⟩ | howner
  · rw [eligible_result w t req appName address signature hreq helig hres]
    rcases hsession with ⟨hc, rfl⟩ | ⟨hc, hs⟩
    · rw [sessionStep_disconnected w address signature hc]
      rfl
    · rw [sessionStep_store_error w address signature e hc hs]
  · exact ownerLookup_raise_result w t req appName address signature e hreq howner

/-- Witness of C5: the unreachable session store under the tier `admin`, and
the failing directory under the tier `appowner`. -/
theorem store_failure_raised_witness :
    (verifyPrivilege storeDownWorld "admin" exampleRequest none).result
      = .error .lookupFailure ∧
    (verifyPrivilege directoryDownWorld "appowner" strangerRequest
      (some "UnlistedApp")).result = .error .lookupFailure :=
  ⟨store_failure_raised storeDownWorld .admin exampleRequest none
      (.str "1ExampleAdminZelID") (.str "sigA") .lookupFailure
      ⟨_, rfl, rfl, rfl, rfl, rfl, rfl⟩
      (Or.inl ⟨rfl, fun h => absurd h (by decide), Or.inr ⟨rfl, rfl⟩⟩),
    store_failure_raised directoryDownWorld .appowner strangerRequest (some "UnlistedApp")
      (.str "1Stranger") (.str "sigS") .lookupFailure
      ⟨_, rfl, rfl, rfl, rfl, rfl, rfl⟩
      (Or.inr ⟨rfl, "UnlistedApp", rfl, rfl, rfl⟩)⟩

/-! ## C6: malformed headers -/

/-- C6, evaluated at its failing input: the header string `null` is valid
JSON for `null`, `typeof null` is `object`, so `ensureObject` hands `null`
back and reading `auth.zelid` raises a `TypeError` in each of the six checks;
the header string `123` is normalised to the empty object and gets `false`. -/
theorem null_header_raises :
    ensureObject exampleWorld (.str "null") = .null ∧
    (verifyPrivilege exampleWorld "user" nullHeaderRequest none).result = .error .typeError ∧
    (verifyPrivilege exampleWorld "admin" nullHeaderRequest none).result = .error .typeError ∧
    (verifyPrivilege exampleWorld "fluxteam" nullHeaderRequest none).result
      = .error .typeError ∧
    (verifyPrivilege exampleWorld "adminandfluxteam" nullHeaderRequest none).result
      = .error .typeError ∧
    (verifyPrivilege exampleWorld "appowner" nullHeaderRequest (some "IndexedApp")).result
      = .error .typeError ∧
    (verifyPrivilege exampleWorld "appownerabove" nullHeaderRequest (some "IndexedApp")).result
      = .error .typeError ∧
    ensureObject exampleWorld (.str "123") = .object [] ∧
    (verifyPrivilege exampleWorld "user" numberHeaderRequest none).result = .ok false :=
  ⟨rfl, rfl, rfl, rfl, rfl, rfl, rfl, rfl, rfl⟩

/-! ## C7: a verifier that raises or answers `false` -/

/-- C7: for every tier and every request that reaches the signature
verification (address and signature present, address eligible, owner resolved
where the tier needs it, session record found): when the verifier raises, and
when it returns `false`, `verifyPrivilege` returns the boolean `false`; no
error leaves it. -/
theorem verifier_failure_refused (w : World) (t : Tier) (req : Request)
    (appName : Option String) (address signature : Atom) (record : SessionRecord)
    (hreq : req.carries w address signature)
    (helig : t.eligible w address appName = true)
    (hres : ownerResolves w t appName)
    (hfound : sessionFound w address signature record)
    (hverify : (∃ e, w.verify record.loginPhrase address signature = .error e) ∨
      w.verify record.loginPhrase address signature = .ok false) :
    (verifyPrivilege w t.label req appName).result = .ok false := by
  rw [eligible_result w t req appName address signature hreq helig hres,
    sessionStep_found w address signature record hfound]
  rcases hverify with ⟨e, he⟩ | hf
  · rw [he]
    rfl
  · rw [hf]
    rfl

/-- Witness of C7: a verifier that throws, and a verifier that answers
`false` on the login phrase of the record found. -/
theorem verifier_failure_refused_witness :
    (verifyPrivilege throwingVerifierWorld "admin" exampleRequest none).result = .ok false ∧
    (verifyPrivilege staleSessionWorld "appownerabove" exampleRequest
      (some "indexedapp")).result = .ok false :=
  ⟨verifier_failure_refused throwingVerifierWorld .admin exampleRequest none
      (.str "1ExampleAdminZelID") (.str "sigA") ⟨"1ExampleAdminZelID", "sigA", "challenge123"⟩
      ⟨_, rfl, rfl, rfl, rfl, rfl, rfl⟩ rfl (fun h => absurd h (by decide))
      ⟨rfl, _, rfl, rfl⟩ (Or.inl ⟨.invalidSignature, rfl⟩),
    verifier_failure_refused staleSessionWorld .appownerabove exampleRequest
      (some "indexedapp")
      (.str "1ExampleAdminZelID") (.str "sigA") ⟨"1ExampleAdminZelID", "sigA", "stale"⟩
      ⟨_, rfl, rfl, rfl, rfl, rfl, rfl⟩ rfl
      (fun _ name hname _ => ⟨.str "1OwnerOfIndexed", by cases hname; rfl⟩)
      ⟨rfl, _, rfl, rfl⟩ (Or.inr rfl)⟩

/-! ## C8: an unrecognised label is refused -/

/-- C8: for every label other than the six strings `admin`, `fluxteam`,
`adminandfluxteam`, `appownerabove`, `appowner`, `user`, and for every request
and resource name, `verifyPrivilege` returns `false` (it does not raise) and
makes no access to any collaborator. -/
theorem unknown_label_refused (w : World) (privilege : String) (req : Request)
    (appName : Option String)
    (h : privilege ≠ "admin" ∧ privilege ≠ "fluxteam" ∧ privilege ≠ "adminandfluxteam" ∧
      privilege ≠ "appownerabove" ∧ privilege ≠ "appowner" ∧ privilege ≠ "user") :
    (verifyPrivilege w privilege req appName).result = .ok false ∧
    (verifyPrivilege w privilege req appName).trace = [] := by
  obtain ⟨h1, h2, h3, h4, h5, h6⟩ := h
  rcases verifyPrivilege_cases w privilege req appName with ⟨t, ht, _⟩ | ⟨_, heq⟩
  · cases t
    · exact absurd ht h6
    · exact absurd ht h1
    · exact absurd ht h2
    · exact absurd ht h3
    · exact absurd ht h5
    · exact absurd ht h4
  · rw [heq]
    exact ⟨rfl, rfl⟩

/-- Witness of C8: the differently-cased label `Admin` and the empty label,
on the request that the tier `admin` authorizes. -/
theorem unknown_label_refused_witness :
    ((verifyPrivilege exampleWorld "Admin" exampleRequest none).result = .ok false ∧
      (verifyPrivilege exampleWorld "Admin" exampleRequest none).trace = []) ∧
    ((verifyPrivilege exampleWorld "" exampleRequest none).result = .ok false ∧
      (verifyPrivilege exampleWorld "" exampleRequest none).trace = []) :=
  ⟨unknown_label_refused exampleWorld "Admin" exampleRequest none (by decide),
    unknown_label_refused exampleWorld "" exampleRequest none (by decide)⟩

/-! ## C9: the application tiers and the resource name -/

/-- C9: for every request and every world, with the resource name absent or
empty the tiers `appowner` and `appownerabove` return `false` without any
access (no owner resolution, no session lookup), whoever the caller is; with
the resource name present and an owner resolution that yields none (`null`),
`appowner` returns `false` for every address carried and never returns
`true`, and `appownerabove` settles exactly as the tier `adminandfluxteam`
does, that is by the administrator and fluxteam comparison alone. -/
theorem appowner_requires_name (w : World) (req : Request) (appName : Option String) :
    (nameTruthy appName = false →
      ((verifyPrivilege w "appowner" req appName).result = .ok false ∧
        (verifyPrivilege w "appowner" req appName).trace = []) ∧
      ((verifyPrivilege w "appownerabove" req appName).result = .ok false ∧
        (verifyPrivilege w "appownerabove" req appName).trace = [])) ∧
    (∀ name, appName = some name → nameTruthy (some name) = true →
      (getApplicationOwner w name).result = .ok .null →
      (∀ address signature, req.carries w address signature →
        (verifyPrivilege w "appowner" req appName).result = .ok false) ∧
      (verifyPrivilege w "appowner" req appName).result ≠ .ok true ∧
      (verifyPrivilege w "appownerabove" req appName).result
        = (verifyPrivilege w "adminandfluxteam" req appName).result) := by
  have ho1 : verifyPrivilege w "appowner" req appName
      = ownerGatedCheck w req.headers appName (fun zelid owner => zelid.strictEq owner) :=
    (verifyPrivilege_label w .appowner req appName).trans
      (Tier.check_eq w .appowner req.headers appName)
  have ho2 : verifyPrivilege w "appownerabove" req appName
      = ownerGatedCheck w req.headers appName (fun zelid owner =>
          zelid.strictEq owner || zelid.strictEq (.str w.fluxTeamZelId)
            || zelid.strictEq (.str w.adminZelid)) :=
    (verifyPrivilege_label w .appownerabove req appName).trans
      (Tier.check_eq w .appownerabove req.headers appName)
  have ho3 : verifyPrivilege w "adminandfluxteam" req appName
      = gatedCheck w req.headers (fun zelid =>
          zelid.strictEq (.str w.fluxTeamZelId) || zelid.strictEq (.str w.adminZelid)) :=
    (verifyPrivilege_label w .adminandfluxteam req appName).trans
      (Tier.check_eq w .adminandfluxteam req.headers appName)
  rw [ho1, ho2, ho3]
  constructor
  · intro hn
    rw [ownerGatedCheck_no_name w req.headers appName _ hn,
      ownerGatedCheck_no_name w req.headers appName _ hn]
    exact ⟨⟨rfl, rfl⟩, ⟨rfl, rfl⟩⟩
  · intro name hname hn ho
    subst hname
    have hcarried : ∀ address signature, req.carries w address signature →
        (ownerGatedCheck w req.headers (some name)
          (fun zelid owner => zelid.strictEq owner)).result = .ok false := by
      intro address signature hc
      have ht : address.truthy = true := by
        obtain ⟨_, _, _, _, _, ha, _⟩ := hc
        exact ha
      rw [ownerGatedCheck_result w req address signature name _ hc hn, ho]
      simp [strictEq_null_of_truthy address ht]
    cases hr : (readAuth w req.headers).result with
    | error e =>
      rw [ownerGatedCheck_readAuth_error w req.headers name _ e hn hr,
        ownerGatedCheck_readAuth_error w req.headers name _ e hn hr,
        gatedCheck_readAuth_error w req.headers _ e hr]
      refine ⟨fun address signature hc => ?_, by simp, rfl⟩
      rw [readAuth_of_carries w req address signature hc] at hr
      simp at hr
    | ok fields =>
      cases fields with
      | none =>
        rw [ownerGatedCheck_readAuth_none w req.headers name _ hn hr,
          ownerGatedCheck_readAuth_none w req.headers name _ hn hr,
          gatedCheck_readAuth_none w req.headers _ hr]
        exact ⟨fun _ _ _ => rfl, by simp, rfl⟩
      | some pair =>
        obtain ⟨address, signature⟩ := pair
        have hc := carries_of_readAuth w req address signature hr
        have ht : address.truthy = true := by
          obtain ⟨_, _, _, _, _, ha, _⟩ := hc
          exact ha
        refine ⟨hcarried, ?_, ?_⟩
        · rw [hcarried address signature hc]
          simp
        · rw [ownerGatedCheck_result w req address signature name _ hc hn, ho,
            gatedCheck_of_carries w req address signature _ hc]
          simp only [strictEq_null_of_truthy address ht, Bool.false_or]
          split <;> rfl

/-- Witness of C9: the administrator holding the valid session, without a
resource name and with the name of an application nobody owns. -/
theorem appowner_requires_name_witness :
    (((verifyPrivilege exampleWorld "appowner" exampleRequest none).result = .ok false ∧
        (verifyPrivilege exampleWorld "appowner" exampleRequest none).trace = []) ∧
      ((verifyPrivilege exampleWorld "appownerabove" exampleRequest none).result = .ok false ∧
        (verifyPrivilege exampleWorld "appownerabove" exampleRequest none).trace = [])) ∧
    (getApplicationOwner exampleWorld "NoSuchApp").result = .ok .null ∧
    ((∀ address signature, exampleRequest.carries exampleWorld address signature →
        (verifyPrivilege exampleWorld "appowner" exampleRequest (some "NoSuchApp")).result
          = .ok false) ∧
      (verifyPrivilege exampleWorld "appowner" exampleRequest (some "NoSuchApp")).result
        ≠ .ok true ∧
      (verifyPrivilege exampleWorld "appownerabove" exampleRequest (some "NoSuchApp")).result
        = (verifyPrivilege exampleWorld "adminandfluxteam" exampleRequest
            (some "NoSuchApp")).result) :=
  ⟨(appowner_requires_name exampleWorld exampleRequest none).1 rfl, rfl,
    (appowner_requires_name exampleWorld exampleRequest (some "NoSuchApp")).2
      "NoSuchApp" rfl rfl rfl⟩

/-! ## Lemmas on the owner resolution -/

theorem getApplicationOwner_indexed (w : World) (appName : String) (re : String → Bool)
    (docs : List AppRecord) (doc : AppRecord)
    (hc : w.connected = true)
    (hre : w.newRegExp ("^" ++ appName ++ "$") "i" = .ok re)
    (hs : w.appsInformation = .ok docs)
    (hf : docs.find? (fun d => re d.name) = some doc) :
    getApplicationOwner w appName
      = ⟨[.appsFindOne ("^" ++ appName ++ "$")], .ok (.str doc.owner)⟩ := by
  simp [getApplicationOwner, openDatabase, hc, hre, findOneInDatabase, hs, Except.map, hf,
    Eff.access_ok_andThen]

theorem getApplicationOwner_fallback (w : World) (appName : String) (re : String → Bool)
    (docs directory : List AppRecord)
    (hc : w.connected = true)
    (hre : w.newRegExp ("^" ++ appName ++ "$") "i" = .ok re)
    (hs : w.appsInformation = .ok docs)
    (hf : docs.find? (fun d => re d.name) = none)
    (hd : w.availableApps = .ok directory) :
    getApplicationOwner w appName
      = ⟨[.appsFindOne ("^" ++ appName ++ "$"), .directoryList],
          .ok (match directory.find?
              (fun app => decide (w.toLowerCase app.name = w.toLowerCase appName)) with
            | some app => .str app.owner
            | none => .null)⟩ := by
  cases hdir : directory.find?
      (fun app => decide (w.toLowerCase app.name = w.toLowerCase appName)) <;>
    simp [getApplicationOwner, openDatabase, hc, hre, findOneInDatabase, hs, Except.map, hf,
      hd, hdir, Eff.access_ok_andThen]

theorem getApplicationOwner_pattern_rejected (w : World) (appName : String) (e : JSError)
    (hc : w.connected = true)
    (hre : w.newRegExp ("^" ++ appName ++ "$") "i" = .error e) :
    getApplicationOwner w appName = Eff.raise e := by
  simp [getApplicationOwner, openDatabase, hc, hre]

/-! ## C10: the order of the owner resolution -/

/-- C10, evaluated at its failing input, the resource name `(`.  In the
example world neither source knows the name, so the resolution order of the
claim yields none; in the second world the fallback directory has an entry of
that name, so the order yields its owner.  In both, the pattern `^($` built
from the name is rejected by the `RegExp` constructor and
`getApplicationOwner` raises a `SyntaxError`, before any lookup.  On the names
`indexedapp` and `DIRECTORYAPP` the order is the stated one. -/
theorem owner_resolution_raises_on_pattern :
    (getApplicationOwner exampleWorld "(").result = .error .syntaxError ∧
    (∃ docs, parenthesisWorld.appsInformation = .ok docs ∧ ∀ doc ∈ docs, doc.name ≠ "(") ∧
    (∃ directory, parenthesisWorld.availableApps = .ok directory ∧
      directory.find? (fun app => decide (asciiLower app.name = asciiLower "("))
        = some ⟨"(", "1OwnerOfParenthesis"⟩) ∧
    (getApplicationOwner parenthesisWorld "(").result = .error .syntaxError ∧
    (getApplicationOwner parenthesisWorld "(").trace = [] ∧
    getApplicationOwner exampleWorld "indexedapp"
      = ⟨[.appsFindOne "^indexedapp$"], .ok (.str "1OwnerOfIndexed")⟩ ∧
    getApplicationOwner exampleWorld "DIRECTORYAPP"
      = ⟨[.appsFindOne "^DIRECTORYAPP$", .directoryList], .ok (.str "1OwnerOfDirectory")⟩ :=
  ⟨rfl, ⟨_, rfl, by decide⟩, ⟨_, rfl, rfl⟩, rfl, rfl, rfl, rfl⟩

/-! ## C11: how the indexed collection matches a resource name -/

theorem getApplicationOwner_uses_nameCondition (w : World) (appName : String)
    (re : String → Bool) (docs : List AppRecord)
    (hc : w.connected = true) (hre : nameCondition w appName = .ok re)
    (hs : w.appsInformation = .ok docs) (doc : AppRecord)
    (hf : docs.find? (fun d => re d.name) = some doc) :
    (getApplicationOwner w appName).result = .ok (.str doc.owner) := by
  rw [getApplicationOwner_indexed w appName re docs doc hc hre hs hf]

/-- C11, evaluated at its failing inputs.  The condition built from the name
`a.c` accepts the stored name `abc`, which differs from it by more than letter
case (the dot of the unescaped name is the wildcard of the pattern), so the
owner of `abc` is returned for `a.c`; and from the name `(` no condition is
built at all, the `RegExp` constructor throwing a `SyntaxError`.  The half of
the claim on letter case holds on plain names: the condition built from
`IndexedApp` accepts `indexedapp` and `INDEXEDAPP` and refuses `IndexedApps`. -/
theorem name_condition_not_exact :
    (nameCondition exampleWorld "a.c").map (fun re => re "abc") = .ok true ∧
    ¬ equalUpToCase exampleWorld "abc" "a.c" ∧
    (getApplicationOwner dottedNameWorld "a.c").result = .ok (.str "1OwnerOfAbc") ∧
    (nameCondition exampleWorld "(").map (fun re => re "(") = .error .syntaxError ∧
    equalUpToCase exampleWorld "(" "(" ∧
    (nameCondition exampleWorld "IndexedApp").map (fun re => re "indexedapp") = .ok true ∧
    (nameCondition exampleWorld "IndexedApp").map (fun re => re "INDEXEDAPP") = .ok true ∧
    (nameCondition exampleWorld "IndexedApp").map (fun re => re "IndexedApps") = .ok false :=
  ⟨rfl, by decide, rfl, rfl, rfl, rfl, rfl, rfl⟩

/-! ## C12: the fallback directory, end to end -/

/-- C12, as stated, fails twice.  The resource `SharedName` has no indexed
record and a directory entry owned by `1ExampleAdminZelID`, who holds a valid
session; the directory lists another entry of the same name up to case in
front of it, the resolution returns the owner of that first entry, and the
check answers `false`.  And the resource `a.c` has no indexed record and a
directory entry owned by `1ExampleAdminZelID`; the pattern built from its name
matches the indexed application `abc`, whose owner is returned, and the check
answers `false`. -/
theorem fallback_owner_not_authorized :
    ((∃ docs, twoEntriesWorld.appsInformation = .ok docs ∧
        ∀ doc ∈ docs, ¬ equalUpToCase twoEntriesWorld doc.name "SharedName") ∧
      (∃ directory, twoEntriesWorld.availableApps = .ok directory ∧
        (⟨"SharedName", "1ExampleAdminZelID"⟩ : AppRecord) ∈ directory) ∧
      exampleRequest.carries twoEntriesWorld (.str "1ExampleAdminZelID") (.str "sigA") ∧
      sessionFound twoEntriesWorld (.str "1ExampleAdminZelID") (.str "sigA")
        ⟨"1ExampleAdminZelID", "sigA", "challenge123"⟩ ∧
      twoEntriesWorld.verify "challenge123" (.str "1ExampleAdminZelID") (.str "sigA")
        = .ok true ∧
      (verifyPrivilege twoEntriesWorld "appowner" exampleRequest (some "SharedName")).result
        = .ok false) ∧
    ((∃ docs, dottedNameWorld.appsInformation = .ok docs ∧
        ∀ doc ∈ docs, ¬ equalUpToCase dottedNameWorld doc.name "a.c") ∧
      (∃ directory, dottedNameWorld.availableApps = .ok directory ∧
        (⟨"a.c", "1ExampleAdminZelID"⟩ : AppRecord) ∈ directory) ∧
      exampleRequest.carries dottedNameWorld (.str "1ExampleAdminZelID") (.str "sigA") ∧
      sessionFound dottedNameWorld (.str "1ExampleAdminZelID") (.str "sigA")
        ⟨"1ExampleAdminZelID", "sigA", "challenge123"⟩ ∧
      dottedNameWorld.verify "challenge123" (.str "1ExampleAdminZelID") (.str "sigA")
        = .ok true ∧
      (verifyPrivilege dottedNameWorld "appowner" exampleRequest (some "a.c")).result
        = .ok false) :=
  ⟨⟨⟨_, rfl, by decide⟩, ⟨_, rfl, by decide⟩, ⟨_, rfl, rfl, rfl, rfl, rfl, rfl⟩,
      ⟨rfl, _, rfl, rfl⟩, rfl, rfl⟩,
    ⟨⟨_, rfl, by decide⟩, ⟨_, rfl, by decide⟩, ⟨_, rfl, rfl, rfl, rfl, rfl, rfl⟩,
      ⟨rfl, _, rfl, rfl⟩, rfl, rfl⟩⟩

/-- C12 (amended): for every resource with a non-empty name for which the
lookup in the indexed collection returns no record, and every request whose
address is the owner recorded by the first directory entry whose name equals
the resource name ignoring case, when the session lookup for the request's
address and signature returns a record over whose login phrase the verifier
accepts the signature, the `appowner` check returns `true`, called directly
and through `verifyPrivilege`. -/
theorem fallback_owner_authorized (w : World) (req : Request) (name : String)
    (address signature : Atom) (re : String → Bool) (docs directory : List AppRecord)
    (entry : AppRecord) (record : SessionRecord)
    (hname : nameTruthy (some name) = true)
    (hreq : req.carries w address signature)
    (hre : nameCondition w name = .ok re)
    (hdocs : w.appsInformation = .ok docs)
    (hmiss : docs.find? (fun doc => re doc.name) = none)
    (hdir : w.availableApps = .ok directory)
    (hentry : directory.find?
      (fun app => decide (w.toLowerCase app.name = w.toLowerCase name)) = some entry)
    (howner : address = .str entry.owner)
    (hfound : sessionFound w address signature record)
    (hverify : w.verify record.loginPhrase address signature = .ok true) :
    (verifyAppOwnerSession w req.headers (some name)).result = .ok true ∧
    (verifyPrivilege w "appowner" req (some name)).result = .ok true := by
  have hc : w.connected = true := hfound.1
  have hres : (getApplicationOwner w name).result = .ok (.str entry.owner) := by
    rw [getApplicationOwner_fallback w name re docs directory hc hre hdocs hmiss hdir, hentry]
  have hstep : (sessionStep w address signature).result = .ok true := by
    rw [sessionStep_found w address signature record hfound, hverify]
    rfl
  have hcheck : (verifyAppOwnerSession w req.headers (some name)).result = .ok true := by
    rw [verifyAppOwnerSession_eq,
      ownerGatedCheck_result w req address signature name _ hreq hname, hres]
    subst howner
    simp [Atom.strictEq, hstep]
  exact ⟨hcheck, hcheck⟩

/-- Witness of C12: `DirectoryApp` is known only to the directory, which
records `1ExampleAdminZelID` as its owner. -/
theorem fallback_owner_authorized_witness :
    (verifyAppOwnerSession ownedDirectoryWorld exampleRequest.headers
      (some "directoryapp")).result = .ok true ∧
    (verifyPrivilege ownedDirectoryWorld "appowner" exampleRequest
      (some "directoryapp")).result = .ok true :=
  fallback_owner_authorized ownedDirectoryWorld exampleRequest "directoryapp"
    (.str "1ExampleAdminZelID") (.str "sigA")
    (fun subject => matchPieces (List.map Piece.lit "directoryapp".data) subject.data)
    [⟨"IndexedApp", "1OwnerOfIndexed"⟩] [⟨"DirectoryApp", "1ExampleAdminZelID"⟩]
    ⟨"DirectoryApp", "1ExampleAdminZelID"⟩ ⟨"1ExampleAdminZelID", "sigA", "challenge123"⟩
    rfl ⟨_, rfl, rfl, rfl, rfl, rfl, rfl⟩ rfl rfl rfl rfl rfl rfl ⟨rfl, _, rfl, rfl⟩ rfl

/-! ## C13: the verifier the tier checks call -/

theorem verifyMessage_short (w : World) (m a s : String) (magic : Option String)
    (segwit : Option Bool) (hm : m ≠ "") (ha : a ≠ "") (hs : s ≠ "") (hl : jsLength a ≤ 36) :
    (verifyMessage w (some m) (some a) (some s) magic segwit).result
      = .ok (returnedOf (w.bitcoinMessageVerify m (.str a) (.str s) magic segwit)) := by
  have hl2 : ¬ jsLength a > 36 := by omega
  unfold verifyMessage captured
  simp only [hm, ha, hs, or_self, if_false, hl2, Eff.bind_def, Eff.pure_def, Eff.ret_andThen]
  cases w.bitcoinMessageVerify m (.str a) (.str s) magic segwit <;> rfl

theorem verifyMessage_long (w : World) (m a s : String) (magic : Option String)
    (segwit : Option Bool) (hm : m ≠ "") (ha : a ≠ "") (hs : s ≠ "") (hl : jsLength a > 36) :
    (verifyMessage w (some m) (some a) (some s) magic segwit).result
      = match w.pubKeyToAddr a "00" with
        | .ok derived =>
          .ok (returnedOf (w.bitcoinMessageVerify m (.str derived) (.str s) magic segwit))
        | .error e => .ok (.errorValue e) := by
  unfold verifyMessage captured
  simp only [hm, ha, hs, or_self, if_false, hl, if_true, Eff.bind_def]
  cases hd : w.pubKeyToAddr a "00" with
  | error e => simp [Eff.access, Eff.andThen]
  | ok derived =>
    simp only [Eff.access_ok_andThen]
    cases w.bitcoinMessageVerify m (.str derived) (.str s) magic segwit <;> rfl

theorem truthy_str (s : String) (h : (Atom.str s).truthy = true) : s ≠ "" := by
  simpa [Atom.truthy] using h

/-- C13, as stated, fails: for the long-form address `examplePublicKey`
`verifyMessage` derives the canonical address and answers `true`, while the
tier check on the stored session hands the address to the verifier as it is
(the verifier call recorded carries the long form) and answers `false`. -/
theorem long_form_not_converted :
    jsLength examplePublicKey > 36 ∧
    (verifyMessage longFormWorld (some "challenge123") (some examplePublicKey) (some "sigA")
      none none).result = .ok (.bool true) ∧
    longFormRequest.carries longFormWorld (.str examplePublicKey) (.str "sigA") ∧
    sessionFound longFormWorld (.str examplePublicKey) (.str "sigA")
      ⟨examplePublicKey, "sigA", "challenge123"⟩ ∧
    (verifyPrivilege longFormWorld "user" longFormRequest none).result = .ok false ∧
    (verifyPrivilege longFormWorld "user" longFormRequest none).trace
      = [.usersFindOne (.str "sigA") (.str examplePublicKey),
          .verifyCall "challenge123" (.str examplePublicKey) (.str "sigA")] :=
  ⟨by decide, rfl, ⟨_, rfl, rfl, rfl, rfl, rfl, rfl⟩, ⟨rfl, _, rfl, rfl⟩, rfl, rfl⟩

/-- C13 (amended): the signature step of every tier check is the underlying
verifier `bitcoinMessage.verify` called on the login phrase of the record
found, the address as the request carries it and the signature, a raised
error counting as `false`; no derivation is applied to a long-form address.
The value agrees with `verifyMessage(phrase, address, signature)` being `true`
whenever the login phrase is not empty and the address has at most 36
characters. -/
theorem signature_step_direct (w : World) (t : Tier) (req : Request)
    (appName : Option String) (address signature : Atom) (record : SessionRecord)
    (hreq : req.carries w address signature)
    (helig : t.eligible w address appName = true)
    (hres : ownerResolves w t appName)
    (hfound : sessionFound w address signature record) :
    (verifyPrivilege w t.label req appName).result
      = .ok (verdict (w.bitcoinMessageVerify record.loginPhrase address signature none none)) ∧
    (∀ a s, address = .str a → signature = .str s → record.loginPhrase ≠ "" →
      jsLength a ≤ 36 →
      ((verifyPrivilege w t.label req appName).result = .ok true ↔
        (verifyMessage w (some record.loginPhrase) (some a) (some s) none none).result
          = .ok (.bool true))) := by
  have hvalue : (verifyPrivilege w t.label req appName).result
      = .ok (verdict (w.bitcoinMessageVerify record.loginPhrase address signature
          none none)) := by
    rw [eligible_result w t req appName address signature hreq helig hres,
      sessionStep_found w address signature record hfound]
    rfl
  refine ⟨hvalue, ?_⟩
  intro a s ha hs hphrase hlen
  subst ha hs
  obtain ⟨_, _, _, _, _, hat, hst⟩ := hreq
  rw [hvalue, verifyMessage_short w record.loginPhrase a s none none hphrase
    (truthy_str a hat) (truthy_str s hst) hlen]
  cases hv : w.bitcoinMessageVerify record.loginPhrase (.str a) (.str s) none none with
  | error e => simp [verdict, returnedOf]
  | ok b => cases b <;> simp [verdict, returnedOf]

/-- Witness of C13: the example scenario, whose address has 18 characters. -/
theorem signature_step_direct_witness :
    (verifyPrivilege exampleWorld "admin" exampleRequest none).result
      = .ok (verdict (exampleWorld.bitcoinMessageVerify "challenge123"
          (.str "1ExampleAdminZelID") (.str "sigA") none none)) ∧
    ((verifyPrivilege exampleWorld "admin" exampleRequest none).result = .ok true ↔
      (verifyMessage exampleWorld (some "challenge123") (some "1ExampleAdminZelID")
        (some "sigA") none none).result = .ok (.bool true)) :=
  ⟨(signature_step_direct exampleWorld .admin exampleRequest none
      (.str "1ExampleAdminZelID") (.str "sigA") ⟨"1ExampleAdminZelID", "sigA", "challenge123"⟩
      ⟨_, rfl, rfl, rfl, rfl, rfl, rfl⟩ rfl (fun h => absurd h (by decide))
      ⟨rfl, _, rfl, rfl⟩).1,
    (signature_step_direct exampleWorld .admin exampleRequest none
      (.str "1ExampleAdminZelID") (.str "sigA") ⟨"1ExampleAdminZelID", "sigA", "challenge123"⟩
      ⟨_, rfl, rfl, rfl, rfl, rfl, rfl⟩ rfl (fun h => absurd h (by decide))
      ⟨rfl, _, rfl, rfl⟩).2 "1ExampleAdminZelID" "sigA" rfl rfl (by decide) (by decide)⟩

/-! ## C14: the address validator -/

theorem verifyZelID_missing (w : World) (address : Option String) (h : absent address = true) :
    verifyZelID w address = Eff.ret (.errorValue missingParameters) := by
  cases address with
  | none => rfl
  | some a =>
    have ha : a = "" := by simpa [absent] using h
    subst ha
    rfl

theorem verifyZelID_wrong_start (w : World) (a : String) (ha : a ≠ "")
    (hp : a.data.head? ≠ some '1') :
    verifyZelID w (some a) = Eff.ret (.errorValue invalidZelID) := by
  unfold verifyZelID captured
  simp [ha, hp, Eff.raise, Eff.ret]

theorem verifyZelID_short (w : World) (a : String) (ha : a ≠ "")
    (hp : a.data.head? = some '1') (hl : jsLength a ≤ 36) :
    verifyZelID w (some a) = Eff.ret (.bool true) := by
  have hl2 : ¬ jsLength a > 36 := by omega
  unfold verifyZelID captured
  simp [ha, hp, hl2, Eff.ret]

theorem verifyZelID_long (w : World) (a : String) (ha : a ≠ "")
    (hp : a.data.head? = some '1') (hl : jsLength a > 36) :
    verifyZelID w (some a)
      = ⟨[.pubKeyToAddr a],
          .ok (match w.pubKeyToAddr a "00" with
            | .ok _ => .bool true
            | .error e => .errorValue e)⟩ := by
  unfold verifyZelID captured
  simp only [ha, hp, hl, if_false, if_true, ne_eq, not_true_eq_false, Eff.bind_def]
  cases hd : w.pubKeyToAddr a "00" with
  | error e => simp [Eff.access, Eff.andThen]
  | ok derived => simp [Eff.access_ok_andThen, Eff.ret]

/-- C14: `verifyZelID(address)` never raises; it returns `true` exactly when
the address is non-empty, starts with `1`, and either has at most 36
characters or is accepted by the public-key derivation; otherwise it returns
the error it caught (missing address, wrong prefix, or the error of the
derivation).  The derivation is called exactly for the non-empty addresses
starting with `1` of more than 36 characters. -/
theorem verifyZelID_spec (w : World) (address : Option String) :
    ((verifyZelID w address).result = .ok (.bool true) ↔
      ∃ a, address = some a ∧ a ≠ "" ∧ a.data.head? = some '1' ∧
        (jsLength a ≤ 36 ∨
          (jsLength a > 36 ∧ ∃ derived, w.pubKeyToAddr a "00" = .ok derived))) ∧
    ((verifyZelID w address).result = .ok (.bool true) ∨
      ∃ e, (verifyZelID w address).result = .ok (.errorValue e)) ∧
    (absent address = true →
      (verifyZelID w address).result = .ok (.errorValue missingParameters)) ∧
    (∀ a, address = some a → a ≠ "" → a.data.head? ≠ some '1' →
      (verifyZelID w address).result = .ok (.errorValue invalidZelID)) ∧
    (∀ a e, address = some a → a ≠ "" → a.data.head? = some '1' → jsLength a > 36 →
      w.pubKeyToAddr a "00" = .error e →
      (verifyZelID w address).result = .ok (.errorValue e)) ∧
    (∀ key, Event.pubKeyToAddr key ∈ (verifyZelID w address).trace ↔
      (address = some key ∧ key ≠ "" ∧ key.data.head? = some '1' ∧ jsLength key > 36)) := by
  by_cases hmiss : absent address = true
  · rw [verifyZelID_missing w address hmiss]
    refine ⟨?_, Or.inr ⟨_, rfl⟩, fun _ => rfl, ?_, ?_, ?_⟩
    · constructor
      · intro h
        simp [Eff.ret] at h
      · rintro ⟨a, rfl, ha, _⟩
        simp [absent, ha] at hmiss
    · intro a haddr ha
      subst haddr
      simp [absent, ha] at hmiss
    · intro a e haddr ha
      subst haddr
      simp [absent, ha] at hmiss
    · intro key
      constructor
      · intro h
        simp [Eff.ret] at h
      · rintro ⟨rfl, hk, _⟩
        simp [absent, hk] at hmiss
  · obtain ⟨a, rfl, ha⟩ : ∃ a, address = some a ∧ a ≠ "" := by
      cases address with
      | none => simp [absent] at hmiss
      | some a => exact ⟨a, rfl, by simpa [absent] using hmiss⟩
    by_cases hp : a.data.head? = some '1'
    · by_cases hl : jsLength a > 36
      · rw [verifyZelID_long w a ha hp hl]
        cases hd : w.pubKeyToAddr a "00" with
        | error e =>
          refine ⟨?_, Or.inr ⟨e, rfl⟩, fun h => absurd h hmiss, ?_, ?_, ?_⟩
          · constructor
            · intro h
              simp at h
            · rintro ⟨b, hb, _, _, h | ⟨_, derived, h⟩⟩
              · cases hb
                omega
              · cases hb
                simp [hd] at h
          · intro b hb _ hnp
            cases hb
            exact absurd hp hnp
          · intro b e2 hb _ _ _ he
            cases hb
            rw [hd] at he
            cases he
            rfl
          · intro key
            simp only [List.mem_singleton, Event.pubKeyToAddr.injEq, Option.some.injEq]
            constructor
            · intro h
              subst h
              exact ⟨rfl, ha, hp, hl⟩
            · intro h
              exact h.1.symm
        | ok derived =>
          refine ⟨?_, Or.inl rfl, fun h => absurd h hmiss, ?_, ?_, ?_⟩
          · constructor
            · intro _
              exact ⟨a, rfl, ha, hp, Or.inr ⟨hl, derived, hd⟩⟩
            · intro _
              rfl
          · intro b hb _ hnp
            cases hb
            exact absurd hp hnp
          · intro b e2 hb _ _ _ he
            cases hb
            rw [hd] at he
            cases he
          · intro key
            simp only [List.mem_singleton, Event.pubKeyToAddr.injEq, Option.some.injEq]
            constructor
            · intro h
              subst h
              exact ⟨rfl, ha, hp, hl⟩
            · intro h
              exact h.1.symm
      · have hl2 : jsLength a ≤ 36 := by omega
        rw [verifyZelID_short w a ha hp hl2]
        refine ⟨?_, Or.inl rfl, fun h => absurd h hmiss, ?_, ?_, ?_⟩
        · constructor
          · intro _
            exact ⟨a, rfl, ha, hp, Or.inl hl2⟩
          · intro _
            rfl
        · intro b hb _ hnp
          cases hb
          exact absurd hp hnp
        · intro b e hb _ _ hlong
          cases hb
          exact absurd hlong hl
        · intro key
          constructor
          · intro h
            simp [Eff.ret] at h
          · rintro ⟨hk, _, _, hlong⟩
            cases hk
            exact absurd hlong hl
    · rw [verifyZelID_wrong_start w a ha hp]
      refine ⟨?_, Or.inr ⟨_, rfl⟩, fun h => absurd h hmiss, ?_, ?_, ?_⟩
      · constructor
        · intro h
          simp [Eff.ret] at h
        · rintro ⟨b, hb, _, hpb, _⟩
          cases hb
          exact absurd hpb hp
      · intro b hb _ _
        cases hb
        rfl
      · intro b e hb _ hpb
        cases hb
        exact absurd hpb hp
      · intro key
        constructor
        · intro h
          simp [Eff.ret] at h
        · rintro ⟨hk, _, hpk, _⟩
          cases hk
          exact absurd hpk hp

/-- Witness of C14: an address of exactly 36 characters is accepted without
the derivation being called, in a world where the derivation always throws;
a long-form address is accepted through the derivation; a wrong prefix and a
missing address are returned as errors. -/
theorem verifyZelID_spec_witness :
    jsLength address36 = 36 ∧
    verifyZelID noDerivationWorld (some address36) = ⟨[], .ok (.bool true)⟩ ∧
    verifyZelID exampleWorld (some examplePublicKey)
      = ⟨[.pubKeyToAddr examplePublicKey], .ok (.bool true)⟩ ∧
    (verifyZelID noDerivationWorld (some examplePublicKey)).result
      = .ok (.errorValue (.other "invalid public key")) ∧
    (verifyZelID exampleWorld (some "tExampleAddress")).result
      = .ok (.errorValue invalidZelID) ∧
    (verifyZelID exampleWorld none).result = .ok (.errorValue missingParameters) :=
  ⟨by decide, rfl, rfl,
    (verifyZelID_spec noDerivationWorld (some examplePublicKey)).2.2.2.2.1 examplePublicKey
      (.other "invalid public key") rfl (by decide) rfl (by decide) rfl,
    (verifyZelID_spec exampleWorld (some "tExampleAddress")).2.2.2.1 "tExampleAddress" rfl
      (by decide) (by decide),
    (verifyZelID_spec exampleWorld none).2.2.1 rfl⟩

/-! ## C15: the message verifier -/

theorem verifyMessage_missing (w : World) (message address signature : Option String)
    (magic : Option String) (segwit : Option Bool)
    (h : absent message = true ∨ absent address = true ∨ absent signature = true) :
    verifyMessage w message address signature magic segwit
      = Eff.ret (.errorValue missingParameters) := by
  unfold verifyMessage captured
  cases address with
  | none => rfl
  | some a =>
    cases message with
    | none => rfl
    | some m =>
      cases signature with
      | none => rfl
      | some s =>
        have hor : a = "" ∨ m = "" ∨ s = "" := by
          simp only [absent, decide_eq_true_eq] at h
          tauto
        simp [hor, Eff.raise, Eff.ret]

/-- C15: `verifyMessage` never raises.  With a message, an address or a
signature missing it returns an error value.  Otherwise it returns the outcome
of the underlying verifier on the message, the signing address, the
signature, the message prefix and the segwit flag, where the signing address
is the address itself when it has at most 36 characters and the derived
canonical address when it has more; an error thrown by the derivation or by
the underlying verifier is returned as a value. -/
theorem verifyMessage_spec (w : World) (message address signature : Option String)
    (magic : Option String) (segwit : Option Bool) :
    (∃ value, (verifyMessage w message address signature magic segwit).result = .ok value) ∧
    ((absent message = true ∨ absent address = true ∨ absent signature = true) →
      (verifyMessage w message address signature magic segwit).result
        = .ok (.errorValue missingParameters)) ∧
    (∀ m a s, message = some m → address = some a → signature = some s →
      m ≠ "" → a ≠ "" → s ≠ "" →
      (jsLength a ≤ 36 →
        (verifyMessage w message address signature magic segwit).result
          = .ok (returnedOf (w.bitcoinMessageVerify m (.str a) (.str s) magic segwit))) ∧
      (jsLength a > 36 → ∀ derived, w.pubKeyToAddr a "00" = .ok derived →
        (verifyMessage w message address signature magic segwit).result
          = .ok (returnedOf
              (w.bitcoinMessageVerify m (.str derived) (.str s) magic segwit))) ∧
      (jsLength a > 36 → ∀ e, w.pubKeyToAddr a "00" = .error e →
        (verifyMessage w message address signature magic segwit).result
          = .ok (.errorValue e))) := by
  refine ⟨?_, ?_, ?_⟩
  · unfold verifyMessage captured
    split <;> exact ⟨_, rfl⟩
  · intro h
    rw [verifyMessage_missing w message address signature magic segwit h]
    rfl
  · intro m a s hm ha hs hmne hane hsne
    subst hm ha hs
    refine ⟨fun hl => verifyMessage_short w m a s magic segwit hmne hane hsne hl, ?_, ?_⟩
    · intro hl derived hd
      rw [verifyMessage_long w m a s magic segwit hmne hane hsne hl, hd]
    · intro hl e hd
      rw [verifyMessage_long w m a s magic segwit hmne hane hsne hl, hd]

/-- Witness of C15: a missing signature, a short address, a long-form address
with a derivation that succeeds and one with a derivation that throws, and a
verifier that throws. -/
theorem verifyMessage_spec_witness :
    (verifyMessage exampleWorld (some "challenge123") (some "1ExampleAdminZelID") none
      none none).result = .ok (.errorValue missingParameters) ∧
    (verifyMessage exampleWorld (some "challenge123") (some "1ExampleAdminZelID")
      (some "sigA") none none).result = .ok (.bool true) ∧
    (verifyMessage exampleWorld (some "challenge123") (some examplePublicKey)
      (some "sigA") none none).result = .ok (.bool true) ∧
    (verifyMessage noDerivationWorld (some "challenge123") (some examplePublicKey)
      (some "sigA") none none).result = .ok (.errorValue (.other "invalid public key")) ∧
    (verifyMessage throwingVerifierWorld (some "challenge123") (some "1ExampleAdminZelID")
      (some "sigA") none none).result = .ok (.errorValue .invalidSignature) :=
  ⟨(verifyMessage_spec exampleWorld (some "challenge123") (some "1ExampleAdminZelID") none
      none none).2.1 (Or.inr (Or.inr rfl)),
    ((verifyMessage_spec exampleWorld (some "challenge123") (some "1ExampleAdminZelID")
      (some "sigA") none none).2.2 "challenge123" "1ExampleAdminZelID" "sigA" rfl rfl rfl
      (by decide) (by decide) (by decide)).1 (by decide),
    ((verifyMessage_spec exampleWorld (some "challenge123") (some examplePublicKey)
      (some "sigA") none none).2.2 "challenge123" examplePublicKey "sigA" rfl rfl rfl
      (by decide) (by decide) (by decide)).2.1 (by decide) "1ExampleAdminZelID" rfl,
    ((verifyMessage_spec noDerivationWorld (some "challenge123") (some examplePublicKey)
      (some "sigA") none none).2.2 "challenge123" examplePublicKey "sigA" rfl rfl rfl
      (by decide) (by decide) (by decide)).2.2 (by decide) (.other "invalid public key") rfl,
    ((verifyMessage_spec throwingVerifierWorld (some "challenge123")
      (some "1ExampleAdminZelID") (some "sigA") none none).2.2 "challenge123"
      "1ExampleAdminZelID" "sigA" rfl rfl rfl (by decide) (by decide) (by decide)).1
      (by decide)⟩

/-! ## C16: the cleanup of a login phrase -/

/-- C16: `deleteLoginPhrase(phrase)` completes normally with no result value
for every phrase and every world (unset connection handle, failing store,
store without a record of that phrase), and so does a second call with the
same phrase on the world the first call leaves; with the store reachable the
first call removes the first record of that phrase and nothing else. -/
theorem deleteLoginPhrase_completes (w : World) (phrase : String) :
    (deleteLoginPhrase w phrase).2.result = .ok () ∧
    (deleteLoginPhrase (deleteLoginPhrase w phrase).1 phrase).2.result = .ok () ∧
    (∀ docs, w.connected = true → w.activeLoginPhrases = .ok docs →
      (deleteLoginPhrase w phrase).1.activeLoginPhrases = .ok (docs.erase phrase)) := by
  refine ⟨rfl, rfl, ?_⟩
  intro docs hc hs
  simp only [deleteLoginPhrase, hc, if_true, findOneAndDeleteInDatabase, hs]
  rw [List.erase_eq_eraseP]
  congr 2
  funext loginPhrase
  by_cases h : loginPhrase = phrase
  · subst h
    simp
  · have h2 : ¬ phrase = loginPhrase := fun hp => h hp.symm
    simp [h, h2]

/-- Witness of C16: the phrase `challenge123` deleted twice in the example
world, and once with the connection handle unset. -/
theorem deleteLoginPhrase_completes_witness :
    (deleteLoginPhrase exampleWorld "challenge123").2.result = .ok () ∧
    (deleteLoginPhrase (deleteLoginPhrase exampleWorld "challenge123").1
      "challenge123").2.result = .ok () ∧
    (deleteLoginPhrase exampleWorld "challenge123").1.activeLoginPhrases
      = .ok ["challenge456"] ∧
    (deleteLoginPhrase (deleteLoginPhrase exampleWorld "challenge123").1
      "challenge123").1.activeLoginPhrases = .ok ["challenge456"] ∧
    (deleteLoginPhrase disconnectedWorld "challenge123").2.result = .ok () :=
  ⟨(deleteLoginPhrase_completes exampleWorld "challenge123").1,
    (deleteLoginPhrase_completes exampleWorld "challenge123").2.1,
    (deleteLoginPhrase_completes exampleWorld "challenge123").2.2
      ["challenge123", "challenge456"] rfl rfl,
    rfl,
    (deleteLoginPhrase_completes disconnectedWorld "challenge123").1⟩

/-! ## Lemmas on the generic procedure -/

theorem sessionStep_result_eq (w : World) (address signature : Atom)
    (docs : List SessionRecord) (hc : w.connected = true) (hs : w.loggedUsers = .ok docs) :
    (sessionStep w address signature).result
      = .ok (match docs.find? (sessionQuery w signature address) with
          | none => false
          | some record => verdict (w.verify record.loginPhrase address signature)) := by
  cases hf : docs.find? (sessionQuery w signature address) with
  | none => rw [sessionStep_not_found w address signature docs hc hs hf]
  | some record => rw [sessionStep_found w address signature record ⟨hc, docs, hs, hf⟩]

theorem ineligible_result (w : World) (t : Tier) (req : Request)
    (appName : Option String) (address signature : Atom)
    (hreq : req.carries w address signature)
    (hne : t.eligible w address appName = false)
    (hres : ownerResolves w t appName) :
    (verifyPrivilege w t.label req appName).result = .ok false := by
  have htruthy : address.truthy = true := by
    obtain ⟨_, _, _, _, _, ha, _⟩ := hreq
    exact ha
  rw [verifyPrivilege_label, Tier.check_eq]
  cases t with
  | user => simp [Tier.eligible] at hne
  | admin =>
    simp only [Tier.eligible] at hne
    simp [gatedCheck_of_carries w req address signature _ hreq, hne]
  | fluxteam =>
    simp only [Tier.eligible] at hne
    simp [gatedCheck_of_carries w req address signature _ hreq, hne]
  | adminandfluxteam =>
    simp only [Tier.eligible, Bool.or_eq_false_iff] at hne
    simp [gatedCheck_of_carries w req address signature _ hreq, hne.1, hne.2]
  | appowner =>
    simp only []
    cases appName with
    | none => simp [ownerGatedCheck_no_name w req.headers none _ rfl]
    | some name =>
      by_cases hn : nameTruthy (some name) = true
      · obtain ⟨owner, ho⟩ := hres rfl name rfl hn
        rw [ownerGatedCheck_result w req address signature name _ hreq hn, ho]
        simp only [Tier.eligible, hn, Bool.true_and,
          isResolvedOwner_eq w address owner name htruthy hn ho] at hne
        simp [hne]
      · simp [ownerGatedCheck_no_name w req.headers (some name) _ (by simpa using hn)]
  | appownerabove =>
    simp only []
    cases appName with
    | none => simp [ownerGatedCheck_no_name w req.headers none _ rfl]
    | some name =>
      by_cases hn : nameTruthy (some name) = true
      · obtain ⟨owner, ho⟩ := hres rfl name rfl hn
        rw [ownerGatedCheck_result w req address signature name _ hreq hn, ho]
        simp only [Tier.eligible, hn, Bool.true_and,
          isResolvedOwner_eq w address owner name htruthy hn ho,
          Bool.or_eq_false_iff] at hne
        simp [hne.1.1, hne.1.2, hne.2]
      · simp [ownerGatedCheck_no_name w req.headers (some name) _ (by simpa using hn)]

theorem no_fields_result (w : World) (t : Tier) (req : Request) (appName : Option String)
    (h : readAuth w req.headers = Eff.ret none) :
    (verifyPrivilege w t.label req appName).result = .ok false := by
  have gated : ∀ eligible : Atom → Bool, gatedCheck w req.headers eligible = Eff.ret false := by
    intro eligible
    simp [gatedCheck, h]
  have ownerGated : ∀ eligible : Atom → Atom → Bool,
      ownerGatedCheck w req.headers appName eligible = Eff.ret false := by
    intro eligible
    cases appName with
    | none => rfl
    | some name =>
      by_cases hn : nameTruthy (some name) = true <;> simp [ownerGatedCheck, hn, h]
  rw [verifyPrivilege_label, Tier.check_eq]
  cases t <;> simp [gated, ownerGated]

theorem verifyPrivilege_refines_spec (w : World) (t : Tier) (req : Request)
    (appName : Option String) (sessions : List SessionRecord)
    (hnn : req.headerNormalises w)
    (hc : w.connected = true) (hs : w.loggedUsers = .ok sessions)
    (hres : ownerResolves w t appName) :
    (verifyPrivilege w t.label req appName).result
      = .ok (specDecision w t req appName sessions) := by
  have hread := readAuth_eq_specFields w req hnn
  unfold specDecision specEvaluate
  cases hf : specFields w req with
  | none =>
    rw [hf] at hread
    exact no_fields_result w t req appName hread
  | some pair =>
    obtain ⟨address, signature⟩ := pair
    rw [hf] at hread
    have hcar : req.carries w address signature :=
      carries_of_readAuth w req address signature (by rw [hread]; rfl)
    simp only []
    cases helig : t.eligible w address appName with
    | false =>
      rw [ineligible_result w t req appName address signature hcar helig hres]
      simp
    | true =>
      rw [eligible_result w t req appName address signature hcar helig hres,
        sessionStep_result_eq w address signature sessions hc hs]
      simp only [Bool.not_true, Bool.false_eq_true, if_false]
      cases sessions.find? (sessionQuery w signature address) with
      | none => rfl
      | some record =>
        simp only []
        cases hv : w.verify record.loginPhrase address signature with
        | error e => rfl
        | ok b => cases b <;> rfl

/-! ## C17: the six checks and the generic procedure -/

/-- C17, evaluated at its failing input, the `zelidauth` header `null`: the
generic procedure finds the fields absent and answers `false`, while each of
the six checks raises a `TypeError` on reading `zelid` off the `null` that
`ensureObject` returns.  On the three other requests shown, the checks return
what the generic procedure answers. -/
theorem null_header_breaks_refinement :
    specDecision exampleWorld .user nullHeaderRequest none
      [⟨"1ExampleAdminZelID", "sigA", "challenge123"⟩] = false ∧
    (verifyPrivilege exampleWorld "user" nullHeaderRequest none).result
      = .error .typeError ∧
    specDecision exampleWorld .appownerabove nullHeaderRequest (some "IndexedApp")
      [⟨"1ExampleAdminZelID", "sigA", "challenge123"⟩] = false ∧
    (verifyPrivilege exampleWorld "appownerabove" nullHeaderRequest
      (some "IndexedApp")).result = .error .typeError ∧
    (verifyPrivilege exampleWorld "admin" exampleRequest none).result
      = .ok (specDecision exampleWorld .admin exampleRequest none
          [⟨"1ExampleAdminZelID", "sigA", "challenge123"⟩]) ∧
    (verifyPrivilege exampleWorld "fluxteam" exampleRequest none).result
      = .ok (specDecision exampleWorld .fluxteam exampleRequest none
          [⟨"1ExampleAdminZelID", "sigA", "challenge123"⟩]) ∧
    (verifyPrivilege exampleWorld "appowner" unsignedRequest (some "IndexedApp")).result
      = .ok (specDecision exampleWorld .appowner unsignedRequest (some "IndexedApp")
          [⟨"1ExampleAdminZelID", "sigA", "challenge123"⟩]) :=
  ⟨rfl, rfl, rfl, rfl, rfl, rfl, rfl⟩

/-! ## C18: the hierarchy of the tiers -/

theorem check_true_sessionStep (w : World) (t : Tier) (req : Request)
    (appName : Option String) (h : (t.check w req.headers appName).result = .ok true) :
    ∃ address signature, req.carries w address signature ∧
      (sessionStep w address signature).result = .ok true := by
  rw [Tier.check_eq] at h
  have gated : ∀ eligible : Atom → Bool,
      (gatedCheck w req.headers eligible).result = .ok true →
      ∃ address signature, req.carries w address signature ∧
        (sessionStep w address signature).result = .ok true := by
    intro eligible hg
    obtain ⟨address, signature, hc, _, hstep⟩ := gatedCheck_true w req eligible hg
    rw [hstep] at hg
    exact ⟨address, signature, hc, hg⟩
  have ownerGated : ∀ eligible : Atom → Atom → Bool,
      (ownerGatedCheck w req.headers appName eligible).result = .ok true →
      ∃ address signature, req.carries w address signature ∧
        (sessionStep w address signature).result = .ok true := by
    intro eligible hg
    obtain ⟨address, signature, name, owner, hc, _, _, ho, _, hstep⟩ :=
      ownerGatedCheck_true w req appName eligible hg
    rw [hstep, Eff.andThen_result, ho] at hg
    exact ⟨address, signature, hc, hg⟩
  cases t
  · exact gated _ h
  · exact gated _ h
  · exact gated _ h
  · exact gated _ h
  · exact ownerGated _ h
  · exact ownerGated _ h

/-- C18: on a fixed request, resource name and world, a `true` of the `admin`
check or of the `fluxteam` check implies a `true` of the `adminandfluxteam`
check; a `true` of the `appowner` check implies a `true` of the
`appownerabove` check for the same name; a `true` of the `adminandfluxteam`
check implies a `true` of the `appownerabove` check for every non-empty
resource name whose owner resolution returns; and a `true` of any of the six
checks implies a `true` of the `user` check. -/
theorem tier_hierarchy (w : World) (req : Request) (appName : Option String) :
    (((verifyPrivilege w "admin" req appName).result = .ok true ∨
        (verifyPrivilege w "fluxteam" req appName).result = .ok true) →
      (verifyPrivilege w "adminandfluxteam" req appName).result = .ok true) ∧
    ((verifyPrivilege w "appowner" req appName).result = .ok true →
      (verifyPrivilege w "appownerabove" req appName).result = .ok true) ∧
    ((verifyPrivilege w "adminandfluxteam" req appName).result = .ok true →
      ∀ name owner, appName = some name → nameTruthy (some name) = true →
        (getApplicationOwner w name).result = .ok owner →
        (verifyPrivilege w "appownerabove" req appName).result = .ok true) ∧
    (∀ t : Tier, (verifyPrivilege w t.label req appName).result = .ok true →
      (verifyPrivilege w "user" req appName).result = .ok true) := by
  have hadmin : verifyPrivilege w "admin" req appName
      = gatedCheck w req.headers (fun zelid => zelid.strictEq (.str w.adminZelid)) :=
    (verifyPrivilege_label w .admin req appName).trans
      (Tier.check_eq w .admin req.headers appName)
  have hflux : verifyPrivilege w "fluxteam" req appName
      = gatedCheck w req.headers (fun zelid => zelid.strictEq (.str w.fluxTeamZelId)) :=
    (verifyPrivilege_label w .fluxteam req appName).trans
      (Tier.check_eq w .fluxteam req.headers appName)
  have hboth : verifyPrivilege w "adminandfluxteam" req appName
      = gatedCheck w req.headers (fun zelid =>
          zelid.strictEq (.str w.fluxTeamZelId) || zelid.strictEq (.str w.adminZelid)) :=
    (verifyPrivilege_label w .adminandfluxteam req appName).trans
      (Tier.check_eq w .adminandfluxteam req.headers appName)
  have howner : verifyPrivilege w "appowner" req appName
      = ownerGatedCheck w req.headers appName (fun zelid owner => zelid.strictEq owner) :=
    (verifyPrivilege_label w .appowner req appName).trans
      (Tier.check_eq w .appowner req.headers appName)
  have habove : verifyPrivilege w "appownerabove" req appName
      = ownerGatedCheck w req.headers appName (fun zelid owner =>
          zelid.strictEq owner || zelid.strictEq (.str w.fluxTeamZelId)
            || zelid.strictEq (.str w.adminZelid)) :=
    (verifyPrivilege_label w .appownerabove req appName).trans
      (Tier.check_eq w .appownerabove req.headers appName)
  have huser : verifyPrivilege w "user" req appName
      = gatedCheck w req.headers (fun _ => true) :=
    (verifyPrivilege_label w .user req appName).trans
      (Tier.check_eq w .user req.headers appName)
  refine ⟨?_, ?_, ?_, ?_⟩
  · rintro (h | h)
    · rw [hadmin] at h
      obtain ⟨address, signature, hc, he, hstep⟩ := gatedCheck_true w req _ h
      rw [hstep] at h
      rw [hboth, gatedCheck_of_carries w req address signature _ hc]
      simp [he, h]
    · rw [hflux] at h
      obtain ⟨address, signature, hc, he, hstep⟩ := gatedCheck_true w req _ h
      rw [hstep] at h
      rw [hboth, gatedCheck_of_carries w req address signature _ hc]
      simp [he, h]
  · intro h
    rw [howner] at h
    obtain ⟨address, signature, name, owner, hc, hname, hn, ho, he, hstep⟩ :=
      ownerGatedCheck_true w req appName _ h
    rw [hstep, Eff.andThen_result, ho] at h
    have hsession : (sessionStep w address signature).result = .ok true := h
    subst hname
    rw [habove, ownerGatedCheck_result w req address signature name _ hc hn, ho]
    simp [he, hsession]
  · intro h name owner hname hn ho
    rw [hboth] at h
    obtain ⟨address, signature, hc, he, hstep⟩ := gatedCheck_true w req _ h
    rw [hstep] at h
    subst hname
    rw [habove, ownerGatedCheck_result w req address signature name _ hc hn, ho]
    have hcode : (address.strictEq owner || address.strictEq (.str w.fluxTeamZelId)
        || address.strictEq (.str w.adminZelid)) = true := by
      cases h1 : address.strictEq owner <;> cases h2 : address.strictEq (.str w.fluxTeamZelId)
        <;> cases h3 : address.strictEq (.str w.adminZelid) <;> simp_all
    simp only [hcode, if_true, h]
  · intro t h
    rw [verifyPrivilege_label] at h
    obtain ⟨address, signature, hc, hstep⟩ := check_true_sessionStep w t req appName h
    rw [huser, gatedCheck_of_carries w req address signature _ hc]
    simp [hstep]

/-- Witness of C18: the administrator of the example scenario, with the name
of an indexed application. -/
theorem tier_hierarchy_witness :
    (verifyPrivilege exampleWorld "admin" exampleRequest (some "indexedapp")).result
      = .ok true ∧
    (verifyPrivilege exampleWorld "adminandfluxteam" exampleRequest
      (some "indexedapp")).result = .ok true ∧
    (verifyPrivilege exampleWorld "appownerabove" exampleRequest
      (some "indexedapp")).result = .ok true ∧
    (verifyPrivilege exampleWorld "user" exampleRequest (some "indexedapp")).result
      = .ok true ∧
    (verifyPrivilege ownedDirectoryWorld "appowner" exampleRequest
      (some "directoryapp")).result = .ok true ∧
    (verifyPrivilege ownedDirectoryWorld "appownerabove" exampleRequest
      (some "directoryapp")).result = .ok true :=
  ⟨rfl,
    (tier_hierarchy exampleWorld exampleRequest (some "indexedapp")).1 (Or.inl rfl),
    (tier_hierarchy exampleWorld exampleRequest (some "indexedapp")).2.2.1
      ((tier_hierarchy exampleWorld exampleRequest (some "indexedapp")).1 (Or.inl rfl))
      "indexedapp" (.str "1OwnerOfIndexed") rfl rfl rfl,
    (tier_hierarchy exampleWorld exampleRequest (some "indexedapp")).2.2.2 .admin rfl,
    rfl,
    (tier_hierarchy ownedDirectoryWorld exampleRequest (some "directoryapp")).2.1 rfl⟩

/-! ## C19: eligibility comes before the session store -/

theorem getApplicationOwner_trace (w : World) (name : String) :
    ∀ ev ∈ (getApplicationOwner w name).trace, ev.isOwnerLookup = true := by
  intro ev hev
  cases hc : w.connected with
  | false =>
    simp [getApplicationOwner, openDatabase, hc] at hev
  | true =>
    cases hre : w.newRegExp ("^" ++ name ++ "$") "i" with
    | error e =>
      rw [getApplicationOwner_pattern_rejected w name e hc hre] at hev
      simp at hev
    | ok re =>
      cases hs : w.appsInformation with
      | error e =>
        simp [getApplicationOwner, openDatabase, hc, hre, findOneInDatabase, hs, Except.map,
          Eff.access_error_andThen] at hev
        subst hev
        rfl
      | ok docs =>
        cases hf : docs.find? (fun d => re d.name) with
        | some doc =>
          rw [getApplicationOwner_indexed w name re docs doc hc hre hs hf] at hev
          simp at hev
          subst hev
          rfl
        | none =>
          cases hd : w.availableApps with
          | error e =>
            simp [getApplicationOwner, openDatabase, hc, hre, findOneInDatabase, hs,
              Except.map, hf, hd, Eff.access_ok_andThen, Eff.access_error_andThen] at hev
            rcases hev with h | h <;> subst h <;> rfl
          | ok directory =>
            rw [getApplicationOwner_fallback w name re docs directory hc hre hs hf hd] at hev
            simp at hev
            rcases hev with h | h <;> subst h <;> rfl

/-- C19: for every tier, when the address the request carries fails the
tier's eligibility condition, the `loggedUsers` collection is not queried and
the verifier is not called; every access made is an access of the owner
resolution, and the tiers `admin`, `fluxteam` and `adminandfluxteam` make no
access at all. -/
theorem ineligible_no_session_access (w : World) (t : Tier) (req : Request)
    (appName : Option String) (address signature : Atom)
    (hreq : req.carries w address signature)
    (hne : t.eligible w address appName = false) :
    (∀ sig zelid, Event.usersFindOne sig zelid
      ∉ (verifyPrivilege w t.label req appName).trace) ∧
    (∀ message addr sig, Event.verifyCall message addr sig
      ∉ (verifyPrivilege w t.label req appName).trace) ∧
    (∀ ev ∈ (verifyPrivilege w t.label req appName).trace, ev.isOwnerLookup = true) ∧
    (t.needsOwner = false → (verifyPrivilege w t.label req appName).trace = []) := by
  have htruthy : address.truthy = true := by
    obtain ⟨_, _, _, _, _, ha, _⟩ := hreq
    exact ha
  have hall : (∀ ev ∈ (verifyPrivilege w t.label req appName).trace,
        ev.isOwnerLookup = true) ∧
      (t.needsOwner = false → (verifyPrivilege w t.label req appName).trace = []) := by
    rw [verifyPrivilege_label, Tier.check_eq]
    have ownerCase : ∀ eligible : Atom → Atom → Bool,
        (∀ name owner, appName = some name → nameTruthy (some name) = true →
          (getApplicationOwner w name).result = .ok owner →
          eligible address owner = false) →
        ∀ ev ∈ (ownerGatedCheck w req.headers appName eligible).trace,
          ev.isOwnerLookup = true := by
      intro eligible hcode ev hev
      cases happ : appName with
      | none =>
        rw [happ, ownerGatedCheck_no_name w req.headers none _ rfl] at hev
        simp at hev
      | some name =>
        rw [happ] at hev
        by_cases hn : nameTruthy (some name) = true
        · rw [ownerGatedCheck_of_carries w req address signature name _ hreq hn,
            Eff.andThen_trace] at hev
          cases ho : (getApplicationOwner w name).result with
          | error e =>
            simp only [ho] at hev
            exact getApplicationOwner_trace w name ev hev
          | ok owner =>
            simp only [ho, hcode name owner happ hn ho, Bool.false_eq_true, if_false,
              Eff.ret_trace, List.append_nil] at hev
            exact getApplicationOwner_trace w name ev hev
        · rw [ownerGatedCheck_no_name w req.headers (some name) _ (by simpa using hn)] at hev
          simp at hev
    cases t with
    | user => simp [Tier.eligible] at hne
    | admin =>
      simp only [Tier.eligible] at hne
      simp [gatedCheck_of_carries w req address signature _ hreq, hne]
    | fluxteam =>
      simp only [Tier.eligible] at hne
      simp [gatedCheck_of_carries w req address signature _ hreq, hne]
    | adminandfluxteam =>
      simp only [Tier.eligible, Bool.or_eq_false_iff] at hne
      simp [gatedCheck_of_carries w req address signature _ hreq, hne.1, hne.2]
    | appowner =>
      refine ⟨ownerCase _ ?_, fun h => by simp [Tier.needsOwner] at h⟩
      intro name owner happ hn ho
      subst happ
      simpa only [Tier.eligible, hn, Bool.true_and,
        isResolvedOwner_eq w address owner name htruthy hn ho] using hne
    | appownerabove =>
      refine ⟨ownerCase _ ?_, fun h => by simp [Tier.needsOwner] at h⟩
      intro name owner happ hn ho
      subst happ
      simp only [Tier.eligible, hn, Bool.true_and,
        isResolvedOwner_eq w address owner name htruthy hn ho,
        Bool.or_eq_false_iff] at hne
      simp [hne.1.1, hne.1.2, hne.2]
  refine ⟨?_, ?_, hall.1, hall.2⟩
  · intro sig zelid hmem
    have := hall.1 _ hmem
    simp [Event.isOwnerLookup] at this
  · intro message addr sig hmem
    have := hall.1 _ hmem
    simp [Event.isOwnerLookup] at this

/-- Witness of C19: the administrator on the tier `fluxteam` makes no access;
a stranger on the tier `appowner` makes the owner lookup and nothing else, for
an indexed application and for one the directory has to be asked about. -/
theorem ineligible_no_session_access_witness :
    (verifyPrivilege exampleWorld "fluxteam" exampleRequest none).trace = [] ∧
    (verifyPrivilege exampleWorld "appowner" strangerRequest (some "indexedapp")).trace
      = [.appsFindOne "^indexedapp$"] ∧
    (∀ ev ∈ (verifyPrivilege exampleWorld "appowner" strangerRequest
        (some "directoryapp")).trace, ev.isOwnerLookup = true) ∧
    (verifyPrivilege exampleWorld "appowner" strangerRequest (some "directoryapp")).trace
      = [.appsFindOne "^directoryapp$", .directoryList] :=
  ⟨(ineligible_no_session_access exampleWorld .fluxteam exampleRequest none
      (.str "1ExampleAdminZelID") (.str "sigA") ⟨_, rfl, rfl, rfl, rfl, rfl, rfl⟩ rfl).2.2.2
      rfl,
    rfl,
    (ineligible_no_session_access exampleWorld .appowner strangerRequest
      (some "directoryapp") (.str "1Stranger") (.str "sigS")
      ⟨_, rfl, rfl, rfl, rfl, rfl, rfl⟩ rfl).2.2.1,
    rfl⟩

end Flux
